import Mathlib

/-!
Verification of the `intel/crashlog` library: a shallow embedding of the
Crash Log record header decoder (`src/lib/src/header.rs`), the record payload,
checksum and bit-field reader (`src/lib/src/record.rs`, `record/decode.rs`),
and the UEFI CPER codec (`src/lib/src/cper.rs` and its submodules), together
with theorems settling the specification's claims about them.

Modelling conventions:
* bytes are `Nat` (buffer well-formedness `< 256` stated where a claim needs it);
* Rust machine-integer casts (`as u32`, `as u16`) are `% 2 ^ 32`, `% 2 ^ 16`;
* fallible Rust code (`Option`, `Result`) is `Option` / explicit result types;
* Rust panics (out-of-bounds indexing, underflowing `usize` subtraction) are a
  distinguished `panic`/`none` outcome, as documented on each definition.
-/

set_option maxHeartbeats 1600000
set_option maxRecDepth 4096

namespace Crashlog

/-! ### Byte-level primitives -/

/-- Little-endian value of a byte list (`u16/u32/u64::from_le_bytes`). -/
def fromLE : List Nat → Nat
  | [] => 0
  | b :: bs => b + 256 * fromLE bs

/-- `n`-byte little-endian encoding of `x` (`to_le_bytes`), truncating like Rust. -/
def toLE : Nat → Nat → List Nat
  | 0, _ => []
  | n + 1, x => x % 256 :: toLE n (x / 256)

/-- Rust `s.get(a..b)`: `some` slice iff `a ≤ b ≤ s.len()`. -/
def sliceGet (s : List Nat) (a b : Nat) : Option (List Nat) :=
  if a ≤ b ∧ b ≤ s.length then some ((s.drop a).take (b - a)) else none

/-- Rust `s.get(a..)`: `some` suffix iff `a ≤ s.len()`. -/
def sliceFrom (s : List Nat) (a : Nat) : Option (List Nat) :=
  if a ≤ s.length then some (s.drop a) else none

/-- Rust `&s[a..b]` indexing: panics (modelled `none`) unless `a ≤ b ≤ s.len()`. -/
def sliceIdx (s : List Nat) (a b : Nat) : Option (List Nat) :=
  if a ≤ b ∧ b ≤ s.length then some ((s.drop a).take (b - a)) else none

/-- Rust `uN::from_le_bytes(s.get(a..a+n)?.try_into().ok()?)`. -/
def getLE (s : List Nat) (a n : Nat) : Option Nat :=
  (sliceGet s a (a + n)).map fromLE

/-- Rust `Vec::resize(n, 0)`: truncate to `n` or pad with zeroes up to `n`. -/
def resize (l : List Nat) (n : Nat) : List Nat :=
  l.take n ++ List.replicate (n - l.length) 0

theorem toLE_length (n x : Nat) : (toLE n x).length = n := by
  induction n generalizing x with
  | zero => rfl
  | succ n ih => simp [toLE, ih]

theorem fromLE_toLE (n x : Nat) (h : x < 256 ^ n) : fromLE (toLE n x) = x := by
  induction n generalizing x with
  | zero => simp [pow_zero] at h; simp [toLE, fromLE, h]
  | succ n ih =>
    have hx : x / 256 < 256 ^ n := by
      rw [Nat.div_lt_iff_lt_mul (by norm_num)]
      calc x < 256 ^ (n + 1) := h
        _ = 256 ^ n * 256 := by ring
    simp [toLE, fromLE, ih _ hx, Nat.mod_add_div]

theorem resize_length (l : List Nat) (n : Nat) : (resize l n).length = n := by
  simp [resize]
  omega

theorem resize_of_length_eq (l : List Nat) (n : Nat) (h : l.length = n) :
    resize l n = l := by
  simp [resize, h, List.take_of_length_le (le_of_eq h)]

theorem resize_resize (l : List Nat) (n : Nat) : resize (resize l n) n = l.take n ++ List.replicate (n - l.length) 0 := by
  rw [resize_of_length_eq _ _ (resize_length l n)]; rfl

theorem resize_append_of_le (a b : List Nat) (n : Nat) (h : a.length ≤ n) :
    resize (a ++ b) n = a ++ resize b (n - a.length) := by
  simp [resize, List.take_append_eq_append_take, List.take_of_length_le h]
  omega

/-! ### `header.rs`: Version, Errata, RecordSize, HeaderType, Header -/

/-- `Version`: decoded 32-bit version word (`header.rs`). -/
structure Version where
  revision : Nat
  header_type : Nat
  product_id : Nat
  record_type : Nat
  consumed : Bool
  cldic : Bool
deriving DecidableEq

/-- `Errata` with the fields used by `header.rs` (`Version::into_errata`). -/
structure Errata where
  type0_legacy_server : Bool
  type0_legacy_server_box : Bool
  core_record_size_bytes : Bool
deriving DecidableEq

/-- `Version::from_slice`: `none` both for a short slice and for the
termination sentinels `0` and `0xDEADBEEF`. -/
def Version.fromSlice (slice : List Nat) : Option Version :=
  match getLE slice 0 4 with
  | none => none
  | some version =>
    if version = 0 ∨ version = 0xdeadbeef then none
    else
      some { cldic := (version >>> 30) &&& 1 = 1
             consumed := (version >>> 31) &&& 1 = 1
             revision := version &&& 0xFF
             header_type := (version >>> 8) &&& 0xF
             product_id := (version >>> 12) &&& 0xFFF
             record_type := (version >>> 24) &&& 0x3F }

/-- `Version::into_errata` (`header.rs:554`). -/
def Version.intoErrata (v : Version) : Errata :=
  let type0_legacy_server := v.header_type == 0 && v.product_id == 0x2f
  let type0_legacy_server_box := type0_legacy_server && v.record_type == 0x4
  let core_record_size_bytes := !type0_legacy_server &&
    ((v.record_type == 0x06 && v.product_id < 0x96) ||
     (v.record_type == 0x04 && v.product_id < 0x71))
  { type0_legacy_server, type0_legacy_server_box, core_record_size_bytes }

/-- `RecordSize` (`header.rs`). -/
structure RecordSize where
  record_size : Nat
  extended_record_size : Nat
deriving DecidableEq

def RecordSize.fromSlice (slice : List Nat) : Option RecordSize := do
  let rs ← getLE slice 4 2
  let ers ← getLE slice 6 2
  pure { record_size := rs, extended_record_size := ers }

def RecordSize.fromSliceType0LegacyServer (slice : List Nat) : Option RecordSize := do
  let rs ← getLE slice 16 2
  pure { record_size := rs, extended_record_size := 0 }

/-- `HeaderType` tagged union (`header.rs`). -/
inductive HeaderType where
  | type0 : HeaderType
  | type1 : HeaderType
  | type2 (timestamp agent_version reason : Nat) : HeaderType
  | type3 (timestamp agent_version reason completion_status : Nat)
      (collection_complete : Bool) : HeaderType
  | type4 (timestamp agent_version reason whoami misc : Nat) : HeaderType
  | type5 (timestamp agent_version reason completion_status : Nat)
      (collection_complete : Bool) (error_status : Nat) : HeaderType
  | type6 (timestamp agent_version reason die_id socket_id completion_status_size : Nat)
      (completion_status : List Nat) (collection_complete : Bool) : HeaderType
  | type0LegacyServer (timestamp agent_version reason die_id socket_id completion_status : Nat)
      (collection_complete : Bool) : HeaderType
deriving DecidableEq

def HeaderType.type2FromSlice (slice : List Nat) : Option HeaderType := do
  let timestamp ← getLE slice 8 8
  let agent_version ← getLE slice 16 4
  let reason ← getLE slice 20 4
  pure (.type2 timestamp agent_version reason)

def HeaderType.type3FromSlice (slice : List Nat) : Option HeaderType := do
  let timestamp ← getLE slice 8 8
  let agent_version ← getLE slice 16 4
  let reason ← getLE slice 20 4
  let cs_data ← getLE slice 24 4
  pure (.type3 timestamp agent_version reason (cs_data &&& 0x7FFFFFFF) ((cs_data >>> 31) ≠ 0))

def HeaderType.type4FromSlice (slice : List Nat) : Option HeaderType := do
  let timestamp ← getLE slice 8 8
  let agent_version ← getLE slice 16 4
  let reason ← getLE slice 20 4
  let whoami ← getLE slice 24 4
  let misc ← getLE slice 28 4
  pure (.type4 timestamp agent_version reason whoami misc)

def HeaderType.type5FromSlice (slice : List Nat) : Option HeaderType := do
  let timestamp ← getLE slice 8 8
  let agent_version ← getLE slice 16 4
  let reason ← getLE slice 20 4
  let cs_data ← getLE slice 24 4
  let error_status ← getLE slice 28 4
  pure (.type5 timestamp agent_version reason (cs_data &&& 0x7FFFFFFF) ((cs_data >>> 31) ≠ 0)
    error_status)

def HeaderType.type6FromSlice (slice : List Nat) : Option HeaderType := do
  let timestamp ← getLE slice 8 8
  let agent_version ← getLE slice 16 4
  let reason ← getLE slice 20 4
  let die_skt_info ← sliceGet slice 24 28
  match die_skt_info with
  | [b0, b1, b2, b3] =>
    let die_id := b0
    let socket_id := b1
    let completion_status_size := fromLE [b2, b3] &&& 0x7F
    let collection_complete := b3 &&& 0x80 ≠ 0
    let completion_status ← (List.range completion_status_size).mapM
      (fun dword => getLE slice (28 + dword * 4) 4)
    pure (.type6 timestamp agent_version reason die_id socket_id completion_status_size
      completion_status collection_complete)
  | _ => none

/-- Rust `Option`-returning function that can also panic (bare indexing). -/
inductive Panicking (α : Type u) where
  | ok : α → Panicking α
  | missing : Panicking α
  | panic : Panicking α
deriving DecidableEq

/-- `HeaderType::type0_legacy_server_from_slice` (`header.rs:191`): uses bare
`slice[24]` and `slice[0]` indexing, which panic when out of bounds. -/
def HeaderType.type0LegacyServerFromSlice (slice : List Nat) : Panicking HeaderType :=
  match getLE slice 4 4 with
  | none => .missing
  | some reason =>
    match getLE slice 8 8 with
    | none => .missing
    | some timestamp =>
      match getLE slice 20 4 with
      | none => .missing
      | some agent_version =>
        if h24 : 24 < slice.length then
          let socket_id := slice.get ⟨24, h24⟩
          match getLE slice 28 4 with
          | none => .missing
          | some cs_data =>
            let completion_status := cs_data &&& 0x7FFFFFFF
            let collection_complete := (cs_data >>> 31) ≠ 0
            if h0 : 0 < slice.length then
              let revision := slice.get ⟨0, h0⟩
              let die_idx := revision &&& 0x3
              let die_id := if (revision >>> 7) &&& 1 = 1 then die_idx + 9 else die_idx <<< 2
              .ok (.type0LegacyServer timestamp agent_version reason die_id socket_id
                completion_status collection_complete)
            else .panic
        else .panic

/-- Error cases of `Header::from_slice` (`error.rs` subset). -/
inductive HeaderError where
  | invalidHeader : HeaderError
  | invalidHeaderType (n : Nat) : HeaderError
deriving DecidableEq

/-- `HeaderType::from_slice` (`header.rs:221`). -/
def HeaderType.fromSlice (header_type_value : Nat) (slice : List Nat) :
    Except HeaderError HeaderType :=
  match header_type_value with
  | 0 => .ok .type0
  | 1 => .ok .type1
  | 2 => (HeaderType.type2FromSlice slice).elim (.error .invalidHeader) .ok
  | 3 => (HeaderType.type3FromSlice slice).elim (.error .invalidHeader) .ok
  | 4 => (HeaderType.type4FromSlice slice).elim (.error .invalidHeader) .ok
  | 5 => (HeaderType.type5FromSlice slice).elim (.error .invalidHeader) .ok
  | 6 => (HeaderType.type6FromSlice slice).elim (.error .invalidHeader) .ok
  | type_value => .error (.invalidHeaderType type_value)

/-- `Header` (`header.rs:241`). -/
structure Header where
  version : Version
  size : RecordSize
  header_type : HeaderType
deriving DecidableEq

/-- Outcome of `Header::from_slice`: `ok none` is the termination marker,
`panic` the out-of-bounds indexing panic of the legacy-server path. -/
inductive HResult (α : Type u) where
  | ok : α → HResult α
  | err : HeaderError → HResult α
  | panic : HResult α
deriving DecidableEq

/-- `Header::from_slice` (`header.rs:252`). -/
def Header.fromSlice (slice : List Nat) : HResult (Option Header) :=
  match Version.fromSlice slice with
  | none => .ok none
  | some version =>
    let errata := version.intoErrata
    if errata.type0_legacy_server then
      match RecordSize.fromSliceType0LegacyServer slice with
      | none => .err .invalidHeader
      | some size =>
        match HeaderType.type0LegacyServerFromSlice slice with
        | .panic => .panic
        | .missing => .err .invalidHeader
        | .ok header_type => .ok (some { version, size, header_type })
    else
      match RecordSize.fromSlice slice with
      | none => .err .invalidHeader
      | some size =>
        match HeaderType.fromSlice version.header_type slice with
        | .error e => .err e
        | .ok header_type => .ok (some { version, size, header_type })

/-- `Header::record_size_granularity` (`header.rs:280`). -/
def Header.record_size_granularity (h : Header) : Nat :=
  if h.version.intoErrata.core_record_size_bytes then 1 else 4

/-- `Header::record_size` (`header.rs:289`). -/
def Header.record_size (h : Header) : Nat :=
  (h.size.record_size + h.size.extended_record_size) * h.record_size_granularity

/-- `Header::extended_record_offset` (`header.rs:296`). -/
def Header.extended_record_offset (h : Header) : Option Nat :=
  if h.size.extended_record_size > 0 then
    some (h.size.record_size * h.record_size_granularity)
  else
    none

/-- `Header::header_size` (`header.rs:419`). -/
def Header.header_size (h : Header) : Nat :=
  match h.header_type with
  | .type0 | .type1 => 8
  | .type2 .. => 24
  | .type3 .. => 28
  | .type4 .. => 32
  | .type5 .. => 32
  | .type6 _ _ _ _ _ completion_status_size _ _ => 28 + completion_status_size * 4
  | .type0LegacyServer .. => 32

/-! ### Claim C3: record size and granularity -/

/-- C3: `record_size()` is `(record_size + extended_record_size) · g` with `g = 1`
exactly when the `core_record_size_bytes` errata applies (not legacy-server, and
ECORE with product < 0x96 or PCORE with product < 0x71), else `g = 4`; and
`extended_record_offset()` is `record_size · g` when the extended size is
positive, absent otherwise. -/
theorem c3_record_size_granularity (h : Header) :
    (h.record_size = (h.size.record_size + h.size.extended_record_size) *
      (if ¬(h.version.header_type = 0 ∧ h.version.product_id = 0x2f) ∧
          ((h.version.record_type = 0x06 ∧ h.version.product_id < 0x96) ∨
           (h.version.record_type = 0x04 ∧ h.version.product_id < 0x71))
       then 1 else 4)) ∧
    (h.extended_record_offset =
      if 0 < h.size.extended_record_size then
        some (h.size.record_size *
          (if ¬(h.version.header_type = 0 ∧ h.version.product_id = 0x2f) ∧
              ((h.version.record_type = 0x06 ∧ h.version.product_id < 0x96) ∨
               (h.version.record_type = 0x04 ∧ h.version.product_id < 0x71))
           then 1 else 4))
      else none) := by
  have hg : h.record_size_granularity =
      (if ¬(h.version.header_type = 0 ∧ h.version.product_id = 0x2f) ∧
          ((h.version.record_type = 0x06 ∧ h.version.product_id < 0x96) ∨
           (h.version.record_type = 0x04 ∧ h.version.product_id < 0x71))
       then 1 else 4) := by
    simp only [Header.record_size_granularity, Version.intoErrata, Bool.and_eq_true,
      Bool.not_eq_true', Bool.or_eq_true, beq_iff_eq, decide_eq_true_eq, Bool.and_eq_false_iff]
    split_ifs with h1 h2 h2 <;> first
      | rfl
      | (exfalso; revert h1 h2; simp only [Bool.not_eq_true, Bool.and_eq_false_iff,
          Bool.and_eq_true, Bool.or_eq_true, beq_iff_eq, beq_eq_false_iff_ne, ne_eq,
          decide_eq_true_eq, decide_eq_false_iff_not]; tauto)
  refine ⟨?_, ?_⟩
  · rw [Header.record_size, hg]
  · rw [Header.extended_record_offset, hg]

/-! ### Claim C4: `Header::from_slice` panics on a 24-byte legacy-server buffer -/

/-- A 24-byte buffer whose version word `0x0002F000` decodes to
`header_type = 0`, `product_id = 0x2F` (the legacy-server errata). -/
def c4LegacyBuffer : List Nat := [0x00, 0xF0, 0x02, 0x00] ++ List.replicate 20 0

/-- C4: `Header::from_slice` is claimed never to panic, but on a 24-byte
legacy-server buffer the bare `slice[24]` in
`HeaderType::type0_legacy_server_from_slice` is out of bounds and panics
(the version word is not a termination sentinel, so no claimed case applies). -/
theorem c4_from_slice_panics_on_legacy_server_24 :
    Header.fromSlice c4LegacyBuffer = .panic ∧
    (Version.fromSlice c4LegacyBuffer).map
      (fun v => v.intoErrata.type0_legacy_server) = some true := by
  decide

/-! ### `record.rs`: Record, payload, checksum -/

/-- `Context` (`record.rs:26`). -/
structure Context where
  parent_header : Option Header
deriving DecidableEq

/-- `Record` (`record.rs:15`). -/
structure Record where
  header : Header
  data : List Nat
  context : Context
deriving DecidableEq

/-- `Record::payload` (`record.rs:32`). The Rust code computes
`data.len() - 4` with unchecked `usize` subtraction and then slices with
`&data[begin..end]`; when `cldic` is set and `data.len() < 4`, or when the
range is out of bounds, the call panics — modelled as `none`. -/
def Record.payload (r : Record) : Option (List Nat) :=
  let b := r.header.header_size
  if r.header.version.cldic then
    if 4 ≤ r.data.length then sliceIdx r.data b (r.data.length - 4) else none
  else
    sliceIdx r.data b r.data.length

/-- The dword values of `data.chunks(4).map(|c| u32::from_le_bytes(c.try_into().unwrap_or([0; 4])))`
(`record.rs:48`): the trailing chunk of fewer than 4 bytes fails `try_into`
and is replaced by `[0; 4]`, i.e. by the value 0. -/
def chunksLE : List Nat → List Nat
  | [] => []
  | b0 :: b1 :: b2 :: b3 :: rest => fromLE [b0, b1, b2, b3] :: chunksLE rest
  | _ => [0]

/-- `Record::checksum` (`record.rs:43`). -/
def Record.checksum (r : Record) : Option Bool :=
  if !r.header.version.cldic then none
  else some ((chunksLE r.data).foldl (fun acc dword => (acc + dword) % 2 ^ 32) 0 == 0)

/-- Dwords of the buffer, complete 4-byte little-endian chunks only. -/
def dwordsOf : List Nat → List Nat
  | b0 :: b1 :: b2 :: b3 :: rest => fromLE [b0, b1, b2, b3] :: dwordsOf rest
  | _ => []

/-- Spec-side reference for the claim's words: wrapping u32 sum of the data
interpreted as little-endian dwords with the last chunk ZERO-PADDED. -/
def specDwordSumPadded (data : List Nat) : Nat :=
  (dwordsOf (data ++ List.replicate ((4 - data.length % 4) % 4) 0)).sum % 2 ^ 32

/-- Spec-side sum for the amended claim: the trailing chunk of fewer than
4 bytes is DISCARDED (contributes zero) rather than zero-padded. -/
def specDwordSumTruncated (data : List Nat) : Nat :=
  (dwordsOf data).sum % 2 ^ 32

theorem foldl_wrap_mod (l : List Nat) (a : Nat) :
    l.foldl (fun acc dword => (acc + dword) % 2 ^ 32) (a % 2 ^ 32) = (a + l.sum) % 2 ^ 32 := by
  induction l generalizing a with
  | nil => simp
  | cons d t ih =>
    simp only [List.foldl_cons, List.sum_cons]
    rw [Nat.mod_add_mod, ih (a + d), Nat.add_assoc]

theorem chunksLE_sum : (data : List Nat) → (chunksLE data).sum = (dwordsOf data).sum
  | [] => rfl
  | [_] => rfl
  | [_, _] => rfl
  | [_, _, _] => rfl
  | b0 :: b1 :: b2 :: b3 :: rest => by
    simp [chunksLE, dwordsOf, chunksLE_sum rest]

/-- C5 counterexample record: CLDIC set, `data = [1]`. -/
def c5Record : Record :=
  { header := { version := { revision := 0, header_type := 1, product_id := 0,
                             record_type := 0, consumed := false, cldic := true }
                size := { record_size := 0, extended_record_size := 0 }
                header_type := .type1 }
    data := [1]
    context := { parent_header := none } }

/-- C5 counterexample: with CLDIC set and `data = [1]`, the code returns
`Some(true)` (the partial chunk is discarded, sum 0), while the claim's
zero-padded sum is 1 ≠ 0, i.e. the claim demands `Some(false)`. -/
theorem c5_checksum_counterexample :
    Record.checksum c5Record ≠ some (specDwordSumPadded c5Record.data == 0) ∧
    Record.checksum c5Record = some true ∧
    specDwordSumPadded c5Record.data = 1 := by
  decide

/-- C5 (amended): `checksum()` is `None` iff CLDIC is clear; when CLDIC is set
it returns `Some(b)` with `b` true exactly when the wrapping u32 sum of the
complete 4-byte little-endian dwords of `data` is zero, the trailing chunk of
fewer than 4 bytes being discarded (it contributes zero), not zero-padded. -/
theorem c5_checksum_amended (r : Record) :
    Record.checksum r =
      if r.header.version.cldic then some (specDwordSumTruncated r.data == 0) else none := by
  unfold Record.checksum specDwordSumTruncated
  by_cases hc : r.header.version.cldic
  · simp only [hc, Bool.not_true, Bool.false_eq_true, if_false, if_true]
    have h0 : (0 : Nat) = 0 % 2 ^ 32 := rfl
    rw [h0, foldl_wrap_mod, Nat.zero_add, chunksLE_sum]
  · simp [hc]

/-! ### Claim C10: `Record::payload` slicing and panics -/

/-- C10: `payload()` returns `data[header_size .. len - (4 if cldic)]` exactly
when `header_size + (4 if cldic) ≤ data.len()`, and panics (modelled `none`)
on every record violating that precondition. -/
theorem c10_payload_spec (r : Record) :
    Record.payload r =
      if r.header.header_size + (if r.header.version.cldic then 4 else 0) ≤ r.data.length then
        some ((r.data.drop r.header.header_size).take
          (r.data.length - (if r.header.version.cldic then 4 else 0) - r.header.header_size))
      else none := by
  unfold Record.payload sliceIdx
  by_cases hc : r.header.version.cldic <;> simp only [hc, if_true, if_false] <;>
    split_ifs <;> first | rfl | omega

/-! ### Claim C7: `decode_with_csv` path resolution (`record/decode.rs:115`) -/

/-- Rust `str::split('.')` on a list of characters: `"..ccc"` splits into
`["", "", "ccc"]`, and the empty string into `[""]`. -/
def splitOnDot : List Char → List (List Char)
  | [] => [[]]
  | c :: rest =>
    if c = '.' then [] :: splitOnDot rest
    else
      match splitOnDot rest with
      | [] => [[c]]
      | s :: ss => (c :: s) :: ss

/-- Path resolution of one decode-definition entry name against the running
path (`decode_with_csv`, `record/decode.rs:115-137`): a non-empty first
segment resets the path (absolute); each later empty segment pops the last
element of the running path (`Vec::pop`, no-op on empty); a non-empty one is
pushed. -/
def resolvePath (current : List (List Char)) (name : List Char) : List (List Char) :=
  match splitOnDot name with
  | [] => current
  | top :: rest =>
    let start := if top = [] then current else [top]
    rest.foldl (fun path seg => if seg = [] then path.dropLast else path ++ [seg]) start

/-- C7 counterexample: resolving `"..ccc"` from running path `[foo, aaa, bbb]`
does NOT yield `[foo, ccc]` (the claim's "pop two" behaviour). -/
theorem c7_path_resolution_counterexample :
    resolvePath [['f','o','o'], ['a','a','a'], ['b','b','b']] ['.','.','c','c','c'] ≠
      [['f','o','o'], ['c','c','c']] := by
  decide

/-- C7 (amended): in `decode_with_csv` path resolution, the first empty
segment only marks the name as relative; each LATER empty segment pops one
element. Hence `"..ccc"` pops exactly one segment before pushing `ccc`:
from any running path `p` it yields `p.dropLast ++ [ccc]`, and from
`[foo, aaa, bbb]` the entry's node is created at `foo.aaa.ccc`. -/
theorem c7_path_resolution_amended :
    (∀ p : List (List Char),
      resolvePath p ['.','.','c','c','c'] = p.dropLast ++ [['c','c','c']]) ∧
    resolvePath [['f','o','o'], ['a','a','a'], ['b','b','b']] ['.','.','c','c','c'] =
      [['f','o','o'], ['a','a','a'], ['c','c','c']] := by
  refine ⟨fun p => rfl, by decide⟩

/-! ### Claim C6: `Record::read_field` (`record/decode.rs:28`) -/

/-- The `while bit < size` loop of `read_field`: reads the byte containing
bit `offset + bit`, masks `min(size - bit, 8)` bits, ORs them into `value`
at position `bit`, advances to the next byte boundary. -/
def readFieldLoop (data : List Nat) (offset size : Nat) (bit value : Nat) : Option Nat :=
  if h : bit < size then
    let chunk := (offset + bit) / 8
    if hc : chunk < data.length then
      let bit_offset := (offset + bit) % 8
      let mask := 2 ^ (min (size - bit) 8) - 1
      readFieldLoop data offset size (bit + (8 - bit_offset))
        (value ||| (((data.get ⟨chunk, hc⟩ >>> bit_offset) &&& mask) <<< bit))
    else none
  else some value
termination_by size - bit
decreasing_by
  have h8 : (offset + bit) % 8 < 8 := Nat.mod_lt _ (by norm_num)
  omega

/-- `Record::read_field` (`record/decode.rs:28`). -/
def Record.read_field (r : Record) (offset size : Nat) : Option Nat :=
  if size > 64 then none
  else readFieldLoop r.data offset size 0 0

/-- Bit `j` of the buffer, with bit 0 the least significant bit of byte 0,
little-endian across bytes (the claim's convention). -/
def bufferBit (data : List Nat) (j : Nat) : Bool :=
  (data.getD (j / 8) 0).testBit (j % 8)

/-- Spec-side reference "concatenate bits" value: bit `i` of the result is
bit `off + i` of the buffer, for `i < size`. -/
def specConcatBits (data : List Nat) : Nat → Nat → Nat
  | _, 0 => 0
  | off, n + 1 => (if bufferBit data off then 1 else 0) + 2 * specConcatBits data (off + 1) n

theorem specConcatBits_testBit (data : List Nat) (size : Nat) :
    ∀ off i, (specConcatBits data off size).testBit i =
      (decide (i < size) && bufferBit data (off + i)) := by
  induction size with
  | zero => intro off i; simp [specConcatBits]
  | succ n ih =>
    intro off i
    cases i with
    | zero =>
      have h2 : specConcatBits data off (n + 1) % 2 = if bufferBit data off then 1 else 0 := by
        rcases hb : bufferBit data off <;> simp [specConcatBits, hb] <;> omega
      rw [Nat.testBit_zero, h2]
      rcases hb : bufferBit data off <;> simp [hb]
    | succ j =>
      have hdiv : specConcatBits data off (n + 1) / 2 = specConcatBits data (off + 1) n := by
        rcases hb : bufferBit data off <;> simp [specConcatBits, hb] <;> omega
      rw [Nat.testBit_add_one, hdiv, ih (off + 1) j]
      have : off + 1 + j = off + (j + 1) := by omega
      rw [this]
      rcases hlt : decide (j < n) <;> rcases hlt2 : decide (j + 1 < n + 1) <;>
        simp_all <;> omega

theorem readFieldLoop_correct (data : List Nat) (off size : Nat)
    (hb : ∀ b ∈ data, b < 256) (hspan : off + size ≤ 8 * data.length) :
    ∀ fuel bit value, size - bit ≤ fuel →
    (∀ i, value.testBit i = (decide (i < min bit size) && bufferBit data (off + i))) →
    ∃ v, readFieldLoop data off size bit value = some v ∧
      ∀ i, v.testBit i = (decide (i < size) && bufferBit data (off + i)) := by
  intro fuel
  induction fuel with
  | zero =>
    intro bit value hfuel hinv
    have hbit : ¬ bit < size := by omega
    refine ⟨value, ?_, ?_⟩
    · rw [readFieldLoop, dif_neg hbit]
    · intro i
      have : min bit size = size := by omega
      simpa [this] using hinv i
  | succ fuel ih =>
    intro bit value hfuel hinv
    by_cases hbit : bit < size
    · have hc : (off + bit) / 8 < data.length := by
        have : off + bit < 8 * data.length := by omega
        omega
      rw [readFieldLoop, dif_pos hbit, dif_pos hc]
      set boff := (off + bit) % 8 with hboff
      have hboff8 : boff < 8 := Nat.mod_lt _ (by norm_num)
      set byte := data.get ⟨(off + bit) / 8, hc⟩ with hbyte
      have hbyte256 : byte < 256 := hb _ (List.get_mem data _ hc)
      refine ih (bit + (8 - boff)) _ (by omega) ?_
      intro i
      rw [Nat.testBit_lor, hinv i, Nat.testBit_shiftLeft, Nat.testBit_land,
        Nat.testBit_two_pow_sub_one, Nat.testBit_shiftRight]
      by_cases h1 : i < bit
      · have hmin1 : i < min bit size := by omega
        have hmin2 : i < min (bit + (8 - boff)) size := by omega
        simp [hmin1, hmin2, Nat.not_le_of_lt h1]
      · have hnot1 : ¬ i < min bit size := by omega
        by_cases h2 : i < min (bit + (8 - boff)) size
        · -- a freshly contributed bit
          have hge : bit ≤ i := by omega
          have hlt8 : boff + (i - bit) < 8 := by omega
          have hbyteIsBuf : byte.testBit (boff + (i - bit)) = bufferBit data (off + i) := by
            have hdm : off + bit = 8 * ((off + bit) / 8) + boff := by
              rw [hboff]; omega
            have hdiv : (off + i) / 8 = (off + bit) / 8 := by omega
            have hmod : (off + i) % 8 = boff + (i - bit) := by omega
            rw [bufferBit, hdiv, hmod, hbyte]
            congr 1
            rw [List.getD_eq_getElem _ _ hc]
            simp [List.get_eq_getElem]
          have hmask : i - bit < min (size - bit) 8 := by omega
          simp [hnot1, hge, hmask, hbyteIsBuf, h2]
        · -- beyond the bits this iteration can contribute
          have hnot2 : ¬ i < min (bit + (8 - boff)) size := by omega
          by_cases hge : bit ≤ i
          · by_cases hsz : i < size
            · -- i ≥ bit + 8 - boff: the byte has no bit there
              have h8le : 8 ≤ boff + (i - bit) := by omega
              have : byte.testBit (boff + (i - bit)) = false := by
                apply Nat.testBit_lt_two_pow
                calc byte < 256 := hbyte256
                  _ = 2 ^ 8 := by norm_num
                  _ ≤ 2 ^ (boff + (i - bit)) := Nat.pow_le_pow_right (by norm_num) h8le
              simp [hnot1, hnot2, this]
            · -- i ≥ size: killed by the mask
              have hmask : ¬ i - bit < min (size - bit) 8 := by omega
              simp [hnot1, hnot2, hmask, hsz]
          · simp [hnot1, hnot2, fun h => hge (le_of_lt h)]
            omega
    · refine ⟨value, ?_, ?_⟩
      · rw [readFieldLoop, dif_neg hbit]
      · intro i
        have : min bit size = size := by omega
        simpa [this] using hinv i

/-- C6: for `size ≤ 64` and `off + size ≤ 8·data.len()`, `read_field`
returns `Some v` where `v` is the reference concatenate-bits value
(bit `i` of `v` is bit `off + i` of the buffer, LSB-of-byte-0 first,
little-endian across bytes); and it returns `None` whenever `size > 64`. -/
theorem c6_read_field_correct (r : Record) (off size : Nat)
    (hb : ∀ b ∈ r.data, b < 256) (hsize : size ≤ 64)
    (hspan : off + size ≤ 8 * r.data.length) :
    (∃ v, Record.read_field r off size = some v ∧
      (∀ i, i < size → v.testBit i = bufferBit r.data (off + i)) ∧
      v = specConcatBits r.data off size) ∧
    (∀ sz, 64 < sz → Record.read_field r off sz = none) := by
  constructor
  · obtain ⟨v, hrun, hbits⟩ := readFieldLoop_correct r.data off size hb hspan size 0 0
      (by omega) (by intro i; simp)
    refine ⟨v, ?_, ?_, ?_⟩
    · rw [Record.read_field, if_neg (by omega)]
      exact hrun
    · intro i hi
      rw [hbits i]
      simp [hi]
    · apply Nat.eq_of_testBit_eq
      intro i
      rw [hbits i, specConcatBits_testBit]
  · intro sz hsz
    rw [Record.read_field, if_pos (by omega)]

/-- Record used by the C6 witness. -/
def c6Record : Record :=
  { header := { version := { revision := 0, header_type := 1, product_id := 0,
                             record_type := 0, consumed := false, cldic := false }
                size := { record_size := 0, extended_record_size := 0 }
                header_type := .type1 }
    data := [0x12, 0x34]
    context := { parent_header := none } }

/-- C6 witness: the theorem applied at `data = [0x12, 0x34]`, `off = 4`,
`size = 8`. -/
theorem c6_read_field_correct_witness :
    (∀ b ∈ c6Record.data, b < 256) ∧ (8 : Nat) ≤ 64 ∧ 4 + 8 ≤ 8 * c6Record.data.length ∧
    ((∃ v, Record.read_field c6Record 4 8 = some v ∧
      (∀ i, i < 8 → v.testBit i = bufferBit c6Record.data (4 + i)) ∧
      v = specConcatBits c6Record.data 4 8) ∧
    (∀ sz, 64 < sz → Record.read_field c6Record 4 sz = none)) :=
  ⟨by decide, by decide, by decide,
    c6_read_field_correct c6Record 4 8 (by decide) (by decide) (by decide)⟩

/-! ### `cper/*.rs`: the UEFI CPER codec -/

/-- `Revision` (`cper/revision.rs`). -/
structure Revision where
  major : Nat
  minor : Nat
deriving DecidableEq

/-- `Revision::from_slice`: `[minor, major]` little-endian order. -/
def Revision.fromSlice (s : List Nat) : Option Revision := do
  let minor ← s.get? 0
  let major ← s.get? 1
  pure { major, minor }

def Revision.toBytes (r : Revision) : List Nat := [r.minor, r.major]

/-- `uguid::Guid`, identified with its 16-byte serialized form
(`Guid::from_bytes` / `Guid::to_bytes` are mutually inverse on the bytes). -/
abbrev Guid := List Nat

def guidZero : Guid := List.replicate 16 0

/-- `section::guids::FW_ERROR_RECORD` = `81212a96-09ed-4996-9471-8d729c8e69ed`
in its mixed-endian UEFI byte form. -/
def fwErrorRecordGuid : Guid :=
  [0x96, 0x2a, 0x21, 0x81, 0xed, 0x09, 0x96, 0x49,
   0x94, 0x71, 0x8d, 0x72, 0x9c, 0x8e, 0x69, 0xed]

/-- `ErrorSeverity` (`cper/header.rs`). -/
inductive ErrorSeverity where
  | recoverable | fatal | corrected | informational
deriving DecidableEq

def ErrorSeverity.toU32 : ErrorSeverity → Nat
  | .recoverable => 0
  | .fatal => 1
  | .corrected => 2
  | .informational => 3

/-- `impl From<u32> for ErrorSeverity`. -/
def ErrorSeverity.ofU32 : Nat → ErrorSeverity
  | 0 => .recoverable
  | 1 => .fatal
  | 2 => .corrected
  | _ => .informational

/-- `Timestamp` (`cper/header.rs:52`). -/
structure Timestamp where
  seconds : Nat
  minutes : Nat
  hours : Nat
  precise : Bool
  day : Nat
  month : Nat
  year : Nat
  century : Nat
deriving DecidableEq

def Timestamp.fromSlice (s : List Nat) : Option Timestamp := do
  let seconds ← s.get? 0
  let minutes ← s.get? 1
  let hours ← s.get? 2
  let pb ← s.get? 3
  let day ← s.get? 4
  let month ← s.get? 5
  let year ← s.get? 6
  let century ← s.get? 7
  pure { seconds, minutes, hours, precise := pb &&& 1 ≠ 0, day, month, year, century }

def Timestamp.toBytes (t : Timestamp) : List Nat :=
  [t.seconds, t.minutes, t.hours, if t.precise then 1 else 0, t.day, t.month, t.year, t.century]

/-- `Timestamp::default()`. -/
def timestampDefault : Timestamp :=
  { seconds := 0, minutes := 0, hours := 0, precise := false,
    day := 0, month := 0, year := 0, century := 0 }

/-- `CperHeader` (`cper/header.rs:105`). -/
structure CperHeader where
  revision : Revision
  section_count : Nat
  error_severity : ErrorSeverity
  validation_bits : Nat
  record_length : Nat
  timestamp : Option Timestamp
  platform_id : Option Guid
  partition_id : Option Guid
  creator_id : Guid
  notification_type : Guid
  record_id : Nat
  flags : Nat
  persistence_information : Nat
deriving DecidableEq

/-- `CperHeader::from_slice` (`cper/header.rs:143`); validation bits:
`PLATFORM_ID = 1`, `TIMESTAMP = 2`, `PARTITION_ID = 4`. -/
def CperHeader.fromSlice (s : List Nat) : Option CperHeader := do
  let signature_end ← getLE s 6 4
  if s.take 4 = [0x43, 0x50, 0x45, 0x52] ∧ signature_end = 0xFFFFFFFF then
    let rs ← sliceGet s 4 6
    let revision ← Revision.fromSlice rs
    let validation_bits ← getLE s 16 4
    let section_count ← getLE s 10 2
    let sev ← getLE s 12 4
    let record_length ← getLE s 20 4
    let timestamp ← if validation_bits &&& 2 ≠ 0 then do
        let ts ← sliceGet s 24 32
        (Timestamp.fromSlice ts).map some
      else pure none
    let platform_id ← if validation_bits &&& 1 ≠ 0 then (sliceGet s 32 48).map some
      else pure none
    let partition_id ← if validation_bits &&& 4 ≠ 0 then (sliceGet s 48 64).map some
      else pure none
    let creator_id ← sliceGet s 64 80
    let notification_type ← sliceGet s 80 96
    let record_id ← getLE s 96 8
    let flags ← getLE s 104 4
    let persistence_information ← getLE s 108 8
    pure { revision, section_count, error_severity := ErrorSeverity.ofU32 sev, validation_bits,
           record_length, timestamp, platform_id, partition_id, creator_id, notification_type,
           record_id, flags, persistence_information }
  else none

/-- `CperHeader::normalize` (`cper/header.rs:185`). -/
def CperHeader.normalize (h : CperHeader) : CperHeader :=
  { h with validation_bits :=
      ((if h.timestamp.isSome then 2 else 0) |||
       (if h.platform_id.isSome then 1 else 0)) |||
      (if h.partition_id.isSome then 4 else 0) }

/-- `CperHeader::to_bytes` (`cper/header.rs:199`): 128 bytes. -/
def CperHeader.toBytes (h : CperHeader) : List Nat :=
  [0x43, 0x50, 0x45, 0x52] ++ (h.revision.toBytes ++ ([0xFF, 0xFF, 0xFF, 0xFF] ++
  (toLE 2 h.section_count ++ (toLE 4 h.error_severity.toU32 ++
  (toLE 4 h.validation_bits ++ (toLE 4 h.record_length ++
  ((h.timestamp.getD timestampDefault).toBytes ++
  (h.platform_id.getD guidZero ++ (h.partition_id.getD guidZero ++
  (h.creator_id ++ (h.notification_type ++
  (toLE 8 h.record_id ++ (toLE 4 h.flags ++ (toLE 8 h.persistence_information ++
  List.replicate 12 0))))))))))))))

/-- `SectionSeverity` (`cper/descr.rs`). -/
inductive SectionSeverity where
  | recoverable | fatal | corrected | informational
deriving DecidableEq

def SectionSeverity.toU32 : SectionSeverity → Nat
  | .recoverable => 0
  | .fatal => 1
  | .corrected => 2
  | .informational => 3

def SectionSeverity.ofU32 : Nat → SectionSeverity
  | 0 => .recoverable
  | 1 => .fatal
  | 2 => .corrected
  | _ => .informational

/-- `CperSectionDescriptor` (`cper/descr.rs:54`). -/
structure CperSectionDescriptor where
  section_offset : Nat
  section_length : Nat
  revision : Revision
  validation_bits : Nat
  flags : Nat
  section_type : Guid
  fru_id : Option Guid
  section_severity : SectionSeverity
  fru_text : Option (List Nat)
deriving DecidableEq

/-- `CperSectionDescriptor::from_slice` (`cper/descr.rs:84`); validation bits:
`FRU_ID = 1`, `FRU_STRING = 2`. -/
def CperSectionDescriptor.fromSlice (s : List Nat) : Option CperSectionDescriptor := do
  let rs ← sliceGet s 8 10
  let revision ← Revision.fromSlice rs
  let validation_bits ← s.get? 10
  let section_offset ← getLE s 0 4
  let section_length ← getLE s 4 4
  let flags ← getLE s 12 4
  let section_type ← sliceGet s 16 32
  let fru_id ← if validation_bits &&& 1 ≠ 0 then (sliceGet s 32 48).map some
    else pure none
  let sev ← getLE s 48 4
  let fru_text ← if validation_bits &&& 2 ≠ 0 then (sliceGet s 52 72).map some
    else pure none
  pure { section_offset, section_length, revision, validation_bits, flags, section_type,
         fru_id, section_severity := SectionSeverity.ofU32 sev, fru_text }

/-- `CperSectionDescriptor::normalize` (`cper/descr.rs:114`). -/
def CperSectionDescriptor.normalize (d : CperSectionDescriptor) : CperSectionDescriptor :=
  { d with validation_bits :=
      (if d.fru_id.isSome then 1 else 0) ||| (if d.fru_text.isSome then 2 else 0) }

/-- `CperSectionDescriptor::to_bytes` (`cper/descr.rs:125`): 72 bytes. -/
def CperSectionDescriptor.toBytes (d : CperSectionDescriptor) : List Nat :=
  toLE 4 d.section_offset ++ (toLE 4 d.section_length ++ (d.revision.toBytes ++
  ([d.validation_bits, 0] ++ (toLE 4 d.flags ++ (d.section_type ++
  (d.fru_id.getD guidZero ++ (toLE 4 d.section_severity.toU32 ++
  d.fru_text.getD (List.replicate 20 0))))))))

/-- `FirmwareErrorRecordHeader` (`cper/section/fer.rs:21`). -/
structure FirmwareErrorRecordHeader where
  error_type : Nat
  revision : Nat
  record_identifier : Nat
  guid : Guid
deriving DecidableEq

/-- `FirmwareErrorRecord` (`cper/section/fer.rs:30`). -/
structure FirmwareErrorRecord where
  header : FirmwareErrorRecordHeader
  payload : List Nat
deriving DecidableEq

def FirmwareErrorRecordHeader.fromSlice (s : List Nat) : Option FirmwareErrorRecordHeader := do
  let revision ← s.get? 1
  let error_type ← s.get? 0
  let record_identifier ← getLE s 8 8
  let guid ← if 2 ≤ revision then sliceGet s 16 32 else pure guidZero
  pure { error_type, revision, record_identifier, guid }

/-- `FirmwareErrorRecordHeader::to_bytes` (`cper/section/fer.rs:52`): pushes
`error_type`, `revision`, 6 reserved bytes, `record_identifier`, and then the
16 guid bytes UNCONDITIONALLY — 32 bytes for every revision. -/
def FirmwareErrorRecordHeader.toBytes (h : FirmwareErrorRecordHeader) : List Nat :=
  [h.error_type, h.revision] ++ (List.replicate 6 0 ++ (toLE 8 h.record_identifier ++ h.guid))

/-- `FirmwareErrorRecordHeader::len` (`cper/section/fer.rs:63`):
`HEADER_REV2_SIZE = 32` for revision ≥ 2, else `HEADER_REV1_SIZE = 16`. -/
def FirmwareErrorRecordHeader.len (h : FirmwareErrorRecordHeader) : Nat :=
  if 2 ≤ h.revision then 32 else 16

def FirmwareErrorRecord.fromSlice (s : List Nat) : Option FirmwareErrorRecord := do
  let header ← FirmwareErrorRecordHeader.fromSlice s
  let payload ← sliceFrom s header.len
  pure { header, payload }

def FirmwareErrorRecord.toBytes (f : FirmwareErrorRecord) : List Nat :=
  f.header.toBytes ++ f.payload

/-- `CperSectionBody` (`cper/section.rs:22`). -/
inductive CperSectionBody where
  | firmwareErrorRecord : FirmwareErrorRecord → CperSectionBody
  | unknown : Guid → List Nat → CperSectionBody
deriving DecidableEq

/-- `CperSectionBody::from_slice` (`cper/section.rs:29`). -/
def CperSectionBody.fromSlice (guid : Guid) (s : List Nat) : Option CperSectionBody :=
  if guid = fwErrorRecordGuid then
    (FirmwareErrorRecord.fromSlice s).map .firmwareErrorRecord
  else
    some (.unknown guid s)

def CperSectionBody.guid : CperSectionBody → Guid
  | .firmwareErrorRecord _ => fwErrorRecordGuid
  | .unknown g _ => g

/-- `CperSectionBody::len` (`cper/section.rs:47`). -/
def CperSectionBody.len : CperSectionBody → Nat
  | .firmwareErrorRecord f => f.header.len + f.payload.length
  | .unknown _ data => data.length

/-- `CperSectionBody::to_bytes` (`cper/section.rs:55`). -/
def CperSectionBody.toBytes : CperSectionBody → List Nat
  | .firmwareErrorRecord f => f.toBytes
  | .unknown _ data => data

/-- `CperSection` (`cper/section.rs:67`). -/
structure CperSection where
  descriptor : CperSectionDescriptor
  body : CperSectionBody
deriving DecidableEq

/-- `CperSection::body_bytes` (`cper/section.rs:95`): the body bytes resized
(zero-padded or truncated) to the descriptor's `section_length`. -/
def CperSection.body_bytes (s : CperSection) : List Nat :=
  resize s.body.toBytes s.descriptor.section_length

/-- `Cper` (`cper.rs:23`). -/
structure Cper where
  record_header : CperHeader
  sections : List CperSection
deriving DecidableEq

/-- The cursor loop of `Cper::normalize` (`cper.rs:96-100`): sets each
descriptor's `section_offset` to the running cursor (as `u32`), normalizes
the descriptor's validation bits, and advances by `section_length`;
returns the updated sections and the final cursor. -/
def normalizeSections : Nat → List CperSection → List CperSection × Nat
  | cursor, [] => ([], cursor)
  | cursor, s :: rest =>
    let s' : CperSection :=
      { s with descriptor := { s.descriptor.normalize with section_offset := cursor % 2 ^ 32 } }
    let out := normalizeSections (cursor + s.descriptor.section_length) rest
    (s' :: out.1, out.2)

/-- `Cper::normalize` (`cper.rs:91`). -/
def Cper.normalize (c : Cper) : Cper :=
  let cursor0 := 128 + 72 * c.sections.length
  let out := normalizeSections cursor0 c.sections
  { record_header := ({ c.record_header with
      section_count := c.sections.length % 2 ^ 16,
      record_length := out.2 % 2 ^ 32 }).normalize
    sections := out.1 }

/-- The per-index section decoding closure inside `Cper::from_slice`
(`cper.rs:38-50`): read the `i`-th 72-byte descriptor after the 128-byte
header, slice the body span it declares, and decode the body. -/
def Cper.parseSection (slice : List Nat) (i : Nat) : Option CperSection := do
  let rest ← sliceFrom slice (128 + i * 72)
  let descriptor ← CperSectionDescriptor.fromSlice rest
  let bs ← sliceGet slice descriptor.section_offset
    (descriptor.section_offset + descriptor.section_length)
  let body ← CperSectionBody.fromSlice descriptor.section_type bs
  pure ({ descriptor, body } : CperSection)

/-- `Cper::from_slice` (`cper.rs:32`): sections that fail to decode are
silently dropped by `filter_map`. -/
def Cper.fromSlice (slice : List Nat) : Option Cper := do
  let hs ← sliceGet slice 0 128
  let record_header ← CperHeader.fromSlice hs
  let sections := (List.range record_header.section_count).filterMap
    (Cper.parseSection slice)
  pure (Cper.normalize { record_header, sections })

/-- `Cper::to_bytes` (`cper.rs:107`): header, then all descriptors, then all
section bodies (resized to their declared lengths). -/
def Cper.toBytes (c : Cper) : List Nat :=
  c.record_header.toBytes ++
  ((c.sections.map (fun s => s.descriptor.toBytes)).flatten ++
   (c.sections.map CperSection.body_bytes).flatten)

/-! ### Claim C2: FER header serialization size -/

/-- A revision-0 Firmware Error Record with empty payload. -/
def c2Fer : FirmwareErrorRecord :=
  { header := { error_type := 0, revision := 0, record_identifier := 0, guid := guidZero }
    payload := [] }

/-- C2: for a revision-0 FER the claim requires a 16-byte serialized header,
but `to_bytes` emits the guid unconditionally: the header serializes to 32
bytes and `FirmwareErrorRecord::to_bytes().len()` differs from
`header.len() + payload.len()` (= `CperSectionBody::len()`), contradicting the
`debug_assert_eq!(bytes.len(), self.len())` in `CperSectionBody::to_bytes`. -/
theorem c2_fer_header_always_32_bytes :
    c2Fer.header.revision < 2 ∧
    (FirmwareErrorRecordHeader.toBytes c2Fer.header).length = 32 ∧
    FirmwareErrorRecordHeader.len c2Fer.header = 16 ∧
    (FirmwareErrorRecord.toBytes c2Fer).length ≠
      (CperSectionBody.firmwareErrorRecord c2Fer).len := by
  decide

/-! ### Claim C9: `Cper::from_slice` silently omits undecodable sections -/

/-- A CPER buffer: valid 128-byte header declaring `section_count = 2`; the
first declared section (descriptor at 128, body `[1,2,3,4]` at offset 272) is
decodable; the second (descriptor at 200) declares `section_offset = 1000`,
outside the 276-byte buffer. -/
def c9Buffer : List Nat :=
  ([0x43, 0x50, 0x45, 0x52, 0, 1, 0xFF, 0xFF, 0xFF, 0xFF, 2, 0] ++ List.replicate 116 0) ++
  ([0x10, 0x01, 0, 0, 4, 0, 0, 0, 0, 1] ++ List.replicate 62 0) ++
  ([0xE8, 0x03, 0, 0, 8, 0, 0, 0, 0, 1] ++ List.replicate 62 0) ++
  [1, 2, 3, 4]

/-- C9: on `c9Buffer` the header declares 2 sections, one of which is
undecodable (its span `[1000, 1008)` falls outside the buffer); `from_slice`
still succeeds, keeps exactly the decodable section, and the normalized
result reports `section_count = 1 < 2`. -/
theorem c9_from_slice_omits_undecodable_sections :
    (CperHeader.fromSlice (c9Buffer.take 128)).map (fun h => h.section_count) = some 2 ∧
    (Cper.fromSlice c9Buffer).map (fun c =>
      (c.sections.length, c.record_header.section_count,
       c.sections.map (fun s => s.body))) =
      some (1, 1, [CperSectionBody.unknown guidZero [1, 2, 3, 4]]) := by
  decide

/-! ### Claim C8: invariants established by `Cper::normalize` -/

/-- Sum of the declared `section_length`s of a section list. -/
def sumLens (ss : List CperSection) : Nat :=
  (ss.map (fun s => s.descriptor.section_length)).sum

theorem sumLens_cons (s : CperSection) (rest : List CperSection) :
    sumLens (s :: rest) = s.descriptor.section_length + sumLens rest := by
  simp [sumLens]

theorem sumLens_take_le (ss : List CperSection) : ∀ i, sumLens (ss.take i) ≤ sumLens ss := by
  induction ss with
  | nil => intro i; simp [sumLens]
  | cons s rest ih =>
    intro i
    cases i with
    | zero => simp [sumLens]
    | succ j =>
      rw [List.take_succ_cons, sumLens_cons, sumLens_cons]
      exact Nat.add_le_add_left (ih j) _

theorem normalizeSections_length (ss : List CperSection) :
    ∀ cursor, ((normalizeSections cursor ss).1).length = ss.length := by
  induction ss with
  | nil => intro cursor; rfl
  | cons s rest ih => intro cursor; simp [normalizeSections, ih]

theorem normalizeSections_snd (ss : List CperSection) :
    ∀ cursor, (normalizeSections cursor ss).2 = cursor + sumLens ss := by
  induction ss with
  | nil => intro cursor; simp [normalizeSections, sumLens]
  | cons s rest ih =>
    intro cursor
    rw [normalizeSections, ih, sumLens_cons]
    omega

theorem normalizeSections_get? (ss : List CperSection) :
    ∀ cursor i, ((normalizeSections cursor ss).1)[i]? = (ss[i]?).map (fun s : CperSection =>
      ({ s with descriptor := { s.descriptor.normalize with
          section_offset := (cursor + sumLens (ss.take i)) % 2 ^ 32 } } : CperSection)) := by
  induction ss with
  | nil => intro cursor i; simp [normalizeSections]
  | cons s rest ih =>
    intro cursor i
    cases i with
    | zero => simp [normalizeSections, sumLens]
    | succ j =>
      rw [normalizeSections]
      simp only [List.getElem?_cons_succ, List.take_succ_cons, sumLens_cons]
      rw [ih (cursor + s.descriptor.section_length) j]
      rcases h : rest[j]? <;> simp [h, Nat.add_assoc]

/-- C8: after `normalize()` (and hence after each public constructor that ends
with it), with `N` sections: `record_length = 128 + 72·N + Σ section_length`;
section `i`'s offset is `128 + 72·N + Σ_{j<i} section_length_j` (so the first
is at `128 + 72·N` and each subsequent one is the previous offset plus the
previous length); `section_count = N`; and the header validation bits are
exactly `platform_id·1 + timestamp·2 + partition_id·4` for the present
optional fields. Bounds: `N` fits in u16 and the total length in u32. -/
theorem c8_normalize_invariants (c : Cper)
    (hN : c.sections.length < 2 ^ 16)
    (hT : 128 + 72 * c.sections.length + sumLens c.sections < 2 ^ 32) :
    (Cper.normalize c).record_header.record_length =
      128 + 72 * c.sections.length + sumLens c.sections ∧
    (Cper.normalize c).record_header.section_count = c.sections.length ∧
    (Cper.normalize c).sections.length = c.sections.length ∧
    (∀ i, ∀ hi : i < (Cper.normalize c).sections.length,
      ((Cper.normalize c).sections.get ⟨i, hi⟩).descriptor.section_offset =
        128 + 72 * c.sections.length + sumLens (c.sections.take i)) ∧
    (Cper.normalize c).record_header.validation_bits =
      (if c.record_header.platform_id.isSome then 1 else 0) +
      (if c.record_header.timestamp.isSome then 2 else 0) +
      (if c.record_header.partition_id.isSome then 4 else 0) := by
  refine ⟨?_, ?_, ?_, ?_, ?_⟩
  · show ((CperHeader.normalize _).record_length) = _
    rw [CperHeader.normalize]
    show (normalizeSections (128 + 72 * c.sections.length) c.sections).2 % 2 ^ 32 = _
    rw [normalizeSections_snd]
    exact Nat.mod_eq_of_lt hT
  · show ((CperHeader.normalize _).section_count) = _
    rw [CperHeader.normalize]
    show c.sections.length % 2 ^ 16 = _
    exact Nat.mod_eq_of_lt hN
  · exact normalizeSections_length c.sections _
  · intro i hi
    have hlen : i < c.sections.length := by
      rwa [show (Cper.normalize c).sections.length = c.sections.length from
        normalizeSections_length c.sections _] at hi
    have h1 : ((Cper.normalize c).sections)[i]? =
        some ((Cper.normalize c).sections.get ⟨i, hi⟩) := by
      rw [List.get_eq_getElem, List.getElem?_eq_getElem]
    have h2 := normalizeSections_get? c.sections (128 + 72 * c.sections.length) i
    rw [List.getElem?_eq_getElem hlen, Option.map_some'] at h2
    have h4 := Option.some.inj (h1.symm.trans h2)
    rw [h4]
    show (128 + 72 * c.sections.length + sumLens (c.sections.take i)) % 2 ^ 32 = _
    exact Nat.mod_eq_of_lt (by have := sumLens_take_le c.sections i; omega)
  · show ((CperHeader.normalize _).validation_bits) = _
    rw [CperHeader.normalize]
    rcases ht : c.record_header.timestamp <;>
      rcases hp : c.record_header.platform_id <;>
      rcases hq : c.record_header.partition_id <;>
      simp [ht, hp, hq]

/-- A minimal CPER header (all optional fields absent) shared by the concrete
examples below. -/
def sampleCperHeader : CperHeader :=
  { revision := { major := 1, minor := 1 }, section_count := 0,
    error_severity := .informational, validation_bits := 0, record_length := 128,
    timestamp := none, platform_id := none, partition_id := none,
    creator_id := guidZero, notification_type := guidZero,
    record_id := 0, flags := 0, persistence_information := 0 }

/-- Descriptor of the 4-byte unknown section used by concrete examples. -/
def c8Descr : CperSectionDescriptor :=
  { section_offset := 0, section_length := 4, revision := { major := 1, minor := 0 },
    validation_bits := 0, flags := 0, section_type := guidZero, fru_id := none,
    section_severity := .informational, fru_text := none }

/-- A CPER with one 4-byte unknown section, used by the C8 witness. -/
def c8Cper : Cper :=
  { record_header := sampleCperHeader
    sections := [{ descriptor := c8Descr, body := .unknown guidZero [9, 8, 7, 6] }] }

/-- C8 witness: the invariants instantiated on `c8Cper`. -/
theorem c8_normalize_invariants_witness :
    c8Cper.sections.length < 2 ^ 16 ∧
    128 + 72 * c8Cper.sections.length + sumLens c8Cper.sections < 2 ^ 32 ∧
    ((Cper.normalize c8Cper).record_header.record_length =
      128 + 72 * c8Cper.sections.length + sumLens c8Cper.sections ∧
    (Cper.normalize c8Cper).record_header.section_count = c8Cper.sections.length ∧
    (Cper.normalize c8Cper).sections.length = c8Cper.sections.length ∧
    (∀ i, ∀ hi : i < (Cper.normalize c8Cper).sections.length,
      ((Cper.normalize c8Cper).sections.get ⟨i, hi⟩).descriptor.section_offset =
        128 + 72 * c8Cper.sections.length + sumLens (c8Cper.sections.take i)) ∧
    (Cper.normalize c8Cper).record_header.validation_bits =
      (if c8Cper.record_header.platform_id.isSome then 1 else 0) +
      (if c8Cper.record_header.timestamp.isSome then 2 else 0) +
      (if c8Cper.record_header.partition_id.isSome then 4 else 0)) :=
  ⟨by decide, by decide, c8_normalize_invariants c8Cper (by decide) (by decide)⟩

/-! ### Claim C1: serialization round-trip — support lemmas -/

theorem drop_append_middle (xs ys : List Nat) (o : Nat) (h : xs.length ≤ o) :
    (xs ++ ys).drop o = ys.drop (o - xs.length) := by
  have ho : o = xs.length + (o - xs.length) := by omega
  conv_lhs => rw [ho]
  rw [← List.drop_drop, List.drop_left]

theorem getLE_append_right (xs ys : List Nat) (o n : Nat) (h : xs.length ≤ o) :
    getLE (xs ++ ys) o n = getLE ys (o - xs.length) n := by
  unfold getLE sliceGet
  have hlen : (xs ++ ys).length = xs.length + ys.length := List.length_append xs ys
  by_cases hc : o + n ≤ xs.length + ys.length
  · have c1 : o ≤ o + n ∧ o + n ≤ (xs ++ ys).length := by omega
    have c2 : o - xs.length ≤ o - xs.length + n ∧ o - xs.length + n ≤ ys.length := by omega
    rw [if_pos c1, if_pos c2, drop_append_middle xs ys o h]
    have e : o - xs.length + n - (o - xs.length) = o + n - o := by omega
    rw [e]
  · have c1 : ¬(o ≤ o + n ∧ o + n ≤ (xs ++ ys).length) := by omega
    have c2 : ¬(o - xs.length ≤ o - xs.length + n ∧ o - xs.length + n ≤ ys.length) := by omega
    rw [if_neg c1, if_neg c2]

theorem getLE_exact (xs ys : List Nat) (n : Nat) (h : xs.length = n) :
    getLE (xs ++ ys) 0 n = some (fromLE xs) := by
  unfold getLE sliceGet
  rw [if_pos (by simp; omega)]
  simp [List.take_left' h]

theorem sliceGet_append_right (xs ys : List Nat) (a b : Nat) (hab : a ≤ b)
    (h : xs.length ≤ a) :
    sliceGet (xs ++ ys) a b = sliceGet ys (a - xs.length) (b - xs.length) := by
  unfold sliceGet
  have hlen : (xs ++ ys).length = xs.length + ys.length := List.length_append xs ys
  by_cases hc : b ≤ xs.length + ys.length
  · have c1 : a ≤ b ∧ b ≤ (xs ++ ys).length := by omega
    have c2 : a - xs.length ≤ b - xs.length ∧ b - xs.length ≤ ys.length := by omega
    rw [if_pos c1, if_pos c2, drop_append_middle xs ys a h]
    have e : b - xs.length - (a - xs.length) = b - a := by omega
    rw [e]
  · have c1 : ¬(a ≤ b ∧ b ≤ (xs ++ ys).length) := by omega
    have c2 : ¬(a - xs.length ≤ b - xs.length ∧ b - xs.length ≤ ys.length) := by omega
    rw [if_neg c1, if_neg c2]

theorem sliceGet_exact (xs ys : List Nat) (n : Nat) (h : xs.length = n) :
    sliceGet (xs ++ ys) 0 n = some xs := by
  unfold sliceGet
  rw [if_pos (by simp; omega)]
  simp [List.take_left' h]

theorem get?_append_right (xs ys : List Nat) (i : Nat) (h : xs.length ≤ i) :
    (xs ++ ys).get? i = ys.get? (i - xs.length) := by
  simp [List.get?_eq_getElem?, List.getElem?_append_right h]

theorem sliceFrom_append (xs ys : List Nat) (n : Nat) (h : xs.length = n) :
    sliceFrom (xs ++ ys) n = some ys := by
  unfold sliceFrom
  rw [if_pos (by simp; omega)]
  rw [List.drop_left' h]

/-- `Timestamp::to_bytes` always yields 8 bytes. -/
theorem timestamp_toBytes_length (t : Timestamp) : t.toBytes.length = 8 := rfl

theorem timestamp_roundtrip (t : Timestamp) : Timestamp.fromSlice t.toBytes = some t := by
  rcases t with ⟨s, m, h, p, d, mo, y, c⟩
  rcases p <;> simp [Timestamp.fromSlice, Timestamp.toBytes] <;> decide

theorem revision_roundtrip (r : Revision) : Revision.fromSlice r.toBytes = some r := by
  rcases r with ⟨ma, mi⟩
  rfl

theorem errorSeverity_roundtrip (s : ErrorSeverity) :
    ErrorSeverity.ofU32 (fromLE (toLE 4 s.toU32)) = s := by
  rcases s <;> rfl

theorem sectionSeverity_roundtrip (s : SectionSeverity) :
    SectionSeverity.ofU32 (fromLE (toLE 4 s.toU32)) = s := by
  rcases s <;> rfl

/-- The validation bits computed by `CperHeader::normalize`. -/
def CperHeader.vbits (h : CperHeader) : Nat :=
  ((if h.timestamp.isSome then 2 else 0) |||
   (if h.platform_id.isSome then 1 else 0)) |||
  (if h.partition_id.isSome then 4 else 0)

theorem cperHeader_normalize_eq (h : CperHeader) :
    CperHeader.normalize h = { h with validation_bits := h.vbits } := rfl

/-- The validation bits computed by `CperSectionDescriptor::normalize`. -/
def CperSectionDescriptor.vbits (d : CperSectionDescriptor) : Nat :=
  (if d.fru_id.isSome then 1 else 0) ||| (if d.fru_text.isSome then 2 else 0)

theorem cperDescriptor_normalize_eq (d : CperSectionDescriptor) :
    CperSectionDescriptor.normalize d = { d with validation_bits := d.vbits } := rfl

/-- Field bounds and GUID lengths of a CPER header (u64/u32 ranges, 16-byte
GUIDs), as guaranteed by the Rust types. -/
def CperHeaderWF (h : CperHeader) : Prop :=
  h.record_id < 2 ^ 64 ∧ h.flags < 2 ^ 32 ∧ h.persistence_information < 2 ^ 64 ∧
  h.creator_id.length = 16 ∧ h.notification_type.length = 16 ∧
  (match h.platform_id with | some g => g.length = 16 | none => True) ∧
  (match h.partition_id with | some g => g.length = 16 | none => True)

theorem cperHeader_toBytes_length (h : CperHeader) (hwf : CperHeaderWF h) :
    h.toBytes.length = 128 := by
  obtain ⟨_, _, _, hcr, hnt, hplat, hpart⟩ := hwf
  have h1 : (h.platform_id.getD guidZero).length = 16 := by
    rcases hp : h.platform_id with _ | g
    · rfl
    · rw [hp] at hplat; simpa using hplat
  have h2 : (h.partition_id.getD guidZero).length = 16 := by
    rcases hp : h.partition_id with _ | g
    · rfl
    · rw [hp] at hpart; simpa using hpart
  simp [CperHeader.toBytes, toLE_length, Revision.toBytes, timestamp_toBytes_length,
    h1, h2, hcr, hnt]

/-- Revision serializes to exactly 2 bytes. -/
theorem revision_toBytes_length (r : Revision) : r.toBytes.length = 2 := rfl

theorem guidZero_length : (guidZero : List Nat).length = 16 := rfl

theorem vbits_test_ts (h : CperHeader) :
    CperHeader.vbits h &&& 2 ≠ 0 ↔ h.timestamp.isSome := by
  rcases hts : h.timestamp <;> rcases hpl : h.platform_id <;> rcases hpr : h.partition_id <;>
    simp [CperHeader.vbits, hts, hpl, hpr] <;> try decide

theorem vbits_test_platform (h : CperHeader) :
    CperHeader.vbits h &&& 1 ≠ 0 ↔ h.platform_id.isSome := by
  rcases hts : h.timestamp <;> rcases hpl : h.platform_id <;> rcases hpr : h.partition_id <;>
    simp [CperHeader.vbits, hts, hpl, hpr] <;> try decide

theorem vbits_test_partition (h : CperHeader) :
    CperHeader.vbits h &&& 4 ≠ 0 ↔ h.partition_id.isSome := by
  rcases hts : h.timestamp <;> rcases hpl : h.platform_id <;> rcases hpr : h.partition_id <;>
    simp [CperHeader.vbits, hts, hpl, hpr] <;> try decide

theorem cperHeader_eta (h : CperHeader) (ts : Option Timestamp) (pid ptid : Option Guid)
    (h1 : ts = h.timestamp) (h2 : pid = h.platform_id) (h3 : ptid = h.partition_id) :
    ({ revision := h.revision, section_count := h.section_count,
       error_severity := h.error_severity, validation_bits := h.validation_bits,
       record_length := h.record_length, timestamp := ts, platform_id := pid,
       partition_id := ptid, creator_id := h.creator_id,
       notification_type := h.notification_type, record_id := h.record_id,
       flags := h.flags, persistence_information := h.persistence_information } :
      CperHeader) = h := by
  subst h1
  subst h2
  subst h3
  rfl

/-- Parsing the serialized CPER header recovers it exactly (for a normalized,
well-formed header whose count and length fit their integer widths). -/
theorem cperHeader_roundtrip (h : CperHeader) (hwf : CperHeaderWF h)
    (hvb : h.validation_bits = CperHeader.vbits h)
    (hcnt : h.section_count < 2 ^ 16) (hrl : h.record_length < 2 ^ 32) :
    CperHeader.fromSlice h.toBytes = some h := by
  obtain ⟨hrid, hfl, hpi, hcr, hnt, hplat, hpart⟩ := hwf
  have hplg : (h.platform_id.getD guidZero).length = 16 := by
    rcases hp : h.platform_id with _ | g
    · rfl
    · rw [hp] at hplat; simpa using hplat
  have hprg : (h.partition_id.getD guidZero).length = 16 := by
    rcases hp : h.partition_id with _ | g
    · rfl
    · rw [hp] at hpart; simpa using hpart
  have h64 : (65536 : Nat) = 2 ^ 16 := by norm_num
  have hcnt2 : h.section_count < 256 ^ 2 := by
    have : (256 : Nat) ^ 2 = 2 ^ 16 := by norm_num
    omega
  have hrl4 : h.record_length < 256 ^ 4 := by
    have : (256 : Nat) ^ 4 = 2 ^ 32 := by norm_num
    omega
  have hrid8 : h.record_id < 256 ^ 8 := by
    have : (256 : Nat) ^ 8 = 2 ^ 64 := by norm_num
    omega
  have hfl4 : h.flags < 256 ^ 4 := by
    have : (256 : Nat) ^ 4 = 2 ^ 32 := by norm_num
    omega
  have hpi8 : h.persistence_information < 256 ^ 8 := by
    have : (256 : Nat) ^ 8 = 2 ^ 64 := by norm_num
    omega
  have hvb8 : CperHeader.vbits h < 8 := by
    rcases hx : h.timestamp <;> rcases hy : h.platform_id <;> rcases hz : h.partition_id <;>
      simp [CperHeader.vbits, hx, hy, hz] <;> decide
  have hvb4 : h.validation_bits < 256 ^ 4 := by
    rw [hvb]
    calc CperHeader.vbits h < 8 := hvb8
      _ ≤ 256 ^ 4 := by norm_num
  have e0 : h.toBytes.take 4 = [0x43, 0x50, 0x45, 0x52] := by
    unfold CperHeader.toBytes
    exact List.take_left' (by simp)
  have e6 : getLE h.toBytes 6 4 = some 0xFFFFFFFF := by
    unfold CperHeader.toBytes
    rw [getLE_append_right _ _ _ _ (by simp [revision_toBytes_length, toLE_length, timestamp_toBytes_length, hplg, hprg, hcr, hnt])]
    rw [getLE_append_right _ _ _ _ (by simp [revision_toBytes_length, toLE_length, timestamp_toBytes_length, hplg, hprg, hcr, hnt])]
    simp only [List.length_cons, List.length_nil, revision_toBytes_length, toLE_length, timestamp_toBytes_length, hplg, hprg, hcr, hnt]
    rw [getLE_exact _ _ _ (by simp [revision_toBytes_length, toLE_length, timestamp_toBytes_length, hplg, hprg, hcr, hnt])]
    decide
  have e4 : sliceGet h.toBytes 4 6 = some (h.revision.toBytes) := by
    unfold CperHeader.toBytes
    rw [sliceGet_append_right _ _ _ _ (by simp [revision_toBytes_length, toLE_length, timestamp_toBytes_length, hplg, hprg, hcr, hnt]) (by simp [revision_toBytes_length, toLE_length, timestamp_toBytes_length, hplg, hprg, hcr, hnt])]
    simp only [List.length_cons, List.length_nil, revision_toBytes_length, toLE_length, timestamp_toBytes_length, hplg, hprg, hcr, hnt]
    rw [sliceGet_exact _ _ _ (by simp [revision_toBytes_length, toLE_length, timestamp_toBytes_length, hplg, hprg, hcr, hnt])]
  have e10 : getLE h.toBytes 10 2 = some (fromLE (toLE 2 h.section_count)) := by
    unfold CperHeader.toBytes
    rw [getLE_append_right _ _ _ _ (by simp [revision_toBytes_length, toLE_length, timestamp_toBytes_length, hplg, hprg, hcr, hnt])]
    rw [getLE_append_right _ _ _ _ (by simp [revision_toBytes_length, toLE_length, timestamp_toBytes_length, hplg, hprg, hcr, hnt])]
    rw [getLE_append_right _ _ _ _ (by simp [revision_toBytes_length, toLE_length, timestamp_toBytes_length, hplg, hprg, hcr, hnt])]
    simp only [List.length_cons, List.length_nil, revision_toBytes_length, toLE_length, timestamp_toBytes_length, hplg, hprg, hcr, hnt]
    rw [getLE_exact _ _ _ (by simp [revision_toBytes_length, toLE_length, timestamp_toBytes_length, hplg, hprg, hcr, hnt])]
  have e12 : getLE h.toBytes 12 4 = some (fromLE (toLE 4 h.error_severity.toU32)) := by
    unfold CperHeader.toBytes
    rw [getLE_append_right _ _ _ _ (by simp [revision_toBytes_length, toLE_length, timestamp_toBytes_length, hplg, hprg, hcr, hnt])]
    rw [getLE_append_right _ _ _ _ (by simp [revision_toBytes_length, toLE_length, timestamp_toBytes_length, hplg, hprg, hcr, hnt])]
    rw [getLE_append_right _ _ _ _ (by simp [revision_toBytes_length, toLE_length, timestamp_toBytes_length, hplg, hprg, hcr, hnt])]
    rw [getLE_append_right _ _ _ _ (by simp [revision_toBytes_length, toLE_length, timestamp_toBytes_length, hplg, hprg, hcr, hnt])]
    simp only [List.length_cons, List.length_nil, revision_toBytes_length, toLE_length, timestamp_toBytes_length, hplg, hprg, hcr, hnt]
    rw [getLE_exact _ _ _ (by simp [revision_toBytes_length, toLE_length, timestamp_toBytes_length, hplg, hprg, hcr, hnt])]
  have e16 : getLE h.toBytes 16 4 = some (fromLE (toLE 4 h.validation_bits)) := by
    unfold CperHeader.toBytes
    rw [getLE_append_right _ _ _ _ (by simp [revision_toBytes_length, toLE_length, timestamp_toBytes_length, hplg, hprg, hcr, hnt])]
    rw [getLE_append_right _ _ _ _ (by simp [revision_toBytes_length, toLE_length, timestamp_toBytes_length, hplg, hprg, hcr, hnt])]
    rw [getLE_append_right _ _ _ _ (by simp [revision_toBytes_length, toLE_length, timestamp_toBytes_length, hplg, hprg, hcr, hnt])]
    rw [getLE_append_right _ _ _ _ (by simp [revision_toBytes_length, toLE_length, timestamp_toBytes_length, hplg, hprg, hcr, hnt])]
    rw [getLE_append_right _ _ _ _ (by simp [revision_toBytes_length, toLE_length, timestamp_toBytes_length, hplg, hprg, hcr, hnt])]
    simp only [List.length_cons, List.length_nil, revision_toBytes_length, toLE_length, timestamp_toBytes_length, hplg, hprg, hcr, hnt]
    rw [getLE_exact _ _ _ (by simp [revision_toBytes_length, toLE_length, timestamp_toBytes_length, hplg, hprg, hcr, hnt])]
  have e20 : getLE h.toBytes 20 4 = some (fromLE (toLE 4 h.record_length)) := by
    unfold CperHeader.toBytes
    rw [getLE_append_right _ _ _ _ (by simp [revision_toBytes_length, toLE_length, timestamp_toBytes_length, hplg, hprg, hcr, hnt])]
    rw [getLE_append_right _ _ _ _ (by simp [revision_toBytes_length, toLE_length, timestamp_toBytes_length, hplg, hprg, hcr, hnt])]
    rw [getLE_append_right _ _ _ _ (by simp [revision_toBytes_length, toLE_length, timestamp_toBytes_length, hplg, hprg, hcr, hnt])]
    rw [getLE_append_right _ _ _ _ (by simp [revision_toBytes_length, toLE_length, timestamp_toBytes_length, hplg, hprg, hcr, hnt])]
    rw [getLE_append_right _ _ _ _ (by simp [revision_toBytes_length, toLE_length, timestamp_toBytes_length, hplg, hprg, hcr, hnt])]
    rw [getLE_append_right _ _ _ _ (by simp [revision_toBytes_length, toLE_length, timestamp_toBytes_length, hplg, hprg, hcr, hnt])]
    simp only [List.length_cons, List.length_nil, revision_toBytes_length, toLE_length, timestamp_toBytes_length, hplg, hprg, hcr, hnt]
    rw [getLE_exact _ _ _ (by simp [revision_toBytes_length, toLE_length, timestamp_toBytes_length, hplg, hprg, hcr, hnt])]
  have e24 : sliceGet h.toBytes 24 32 = some ((h.timestamp.getD timestampDefault).toBytes) := by
    unfold CperHeader.toBytes
    rw [sliceGet_append_right _ _ _ _ (by simp [revision_toBytes_length, toLE_length, timestamp_toBytes_length, hplg, hprg, hcr, hnt]) (by simp [revision_toBytes_length, toLE_length, timestamp_toBytes_length, hplg, hprg, hcr, hnt])]
    rw [sliceGet_append_right _ _ _ _ (by simp [revision_toBytes_length, toLE_length, timestamp_toBytes_length, hplg, hprg, hcr, hnt]) (by simp [revision_toBytes_length, toLE_length, timestamp_toBytes_length, hplg, hprg, hcr, hnt])]
    rw [sliceGet_append_right _ _ _ _ (by simp [revision_toBytes_length, toLE_length, timestamp_toBytes_length, hplg, hprg, hcr, hnt]) (by simp [revision_toBytes_length, toLE_length, timestamp_toBytes_length, hplg, hprg, hcr, hnt])]
    rw [sliceGet_append_right _ _ _ _ (by simp [revision_toBytes_length, toLE_length, timestamp_toBytes_length, hplg, hprg, hcr, hnt]) (by simp [revision_toBytes_length, toLE_length, timestamp_toBytes_length, hplg, hprg, hcr, hnt])]
    rw [sliceGet_append_right _ _ _ _ (by simp [revision_toBytes_length, toLE_length, timestamp_toBytes_length, hplg, hprg, hcr, hnt]) (by simp [revision_toBytes_length, toLE_length, timestamp_toBytes_length, hplg, hprg, hcr, hnt])]
    rw [sliceGet_append_right _ _ _ _ (by simp [revision_toBytes_length, toLE_length, timestamp_toBytes_length, hplg, hprg, hcr, hnt]) (by simp [revision_toBytes_length, toLE_length, timestamp_toBytes_length, hplg, hprg, hcr, hnt])]
    rw [sliceGet_append_right _ _ _ _ (by simp [revision_toBytes_length, toLE_length, timestamp_toBytes_length, hplg, hprg, hcr, hnt]) (by simp [revision_toBytes_length, toLE_length, timestamp_toBytes_length, hplg, hprg, hcr, hnt])]
    simp only [List.length_cons, List.length_nil, revision_toBytes_length, toLE_length, timestamp_toBytes_length, hplg, hprg, hcr, hnt]
    rw [sliceGet_exact _ _ _ (by simp [revision_toBytes_length, toLE_length, timestamp_toBytes_length, hplg, hprg, hcr, hnt])]
  have e32 : sliceGet h.toBytes 32 48 = some (h.platform_id.getD guidZero) := by
    unfold CperHeader.toBytes
    rw [sliceGet_append_right _ _ _ _ (by simp [revision_toBytes_length, toLE_length, timestamp_toBytes_length, hplg, hprg, hcr, hnt]) (by simp [revision_toBytes_length, toLE_length, timestamp_toBytes_length, hplg, hprg, hcr, hnt])]
    rw [sliceGet_append_right _ _ _ _ (by simp [revision_toBytes_length, toLE_length, timestamp_toBytes_length, hplg, hprg, hcr, hnt]) (by simp [revision_toBytes_length, toLE_length, timestamp_toBytes_length, hplg, hprg, hcr, hnt])]
    rw [sliceGet_append_right _ _ _ _ (by simp [revision_toBytes_length, toLE_length, timestamp_toBytes_length, hplg, hprg, hcr, hnt]) (by simp [revision_toBytes_length, toLE_length, timestamp_toBytes_length, hplg, hprg, hcr, hnt])]
    rw [sliceGet_append_right _ _ _ _ (by simp [revision_toBytes_length, toLE_length, timestamp_toBytes_length, hplg, hprg, hcr, hnt]) (by simp [revision_toBytes_length, toLE_length, timestamp_toBytes_length, hplg, hprg, hcr, hnt])]
    rw [sliceGet_append_right _ _ _ _ (by simp [revision_toBytes_length, toLE_length, timestamp_toBytes_length, hplg, hprg, hcr, hnt]) (by simp [revision_toBytes_length, toLE_length, timestamp_toBytes_length, hplg, hprg, hcr, hnt])]
    rw [sliceGet_append_right _ _ _ _ (by simp [revision_toBytes_length, toLE_length, timestamp_toBytes_length, hplg, hprg, hcr, hnt]) (by simp [revision_toBytes_length, toLE_length, timestamp_toBytes_length, hplg, hprg, hcr, hnt])]
    rw [sliceGet_append_right _ _ _ _ (by simp [revision_toBytes_length, toLE_length, timestamp_toBytes_length, hplg, hprg, hcr, hnt]) (by simp [revision_toBytes_length, toLE_length, timestamp_toBytes_length, hplg, hprg, hcr, hnt])]
    rw [sliceGet_append_right _ _ _ _ (by simp [revision_toBytes_length, toLE_length, timestamp_toBytes_length, hplg, hprg, hcr, hnt]) (by simp [revision_toBytes_length, toLE_length, timestamp_toBytes_length, hplg, hprg, hcr, hnt])]
    simp only [List.length_cons, List.length_nil, revision_toBytes_length, toLE_length, timestamp_toBytes_length, hplg, hprg, hcr, hnt]
    rw [sliceGet_exact _ _ _ (by simp [revision_toBytes_length, toLE_length, timestamp_toBytes_length, hplg, hprg, hcr, hnt])]
  have e48 : sliceGet h.toBytes 48 64 = some (h.partition_id.getD guidZero) := by
    unfold CperHeader.toBytes
    rw [sliceGet_append_right _ _ _ _ (by simp [revision_toBytes_length, toLE_length, timestamp_toBytes_length, hplg, hprg, hcr, hnt]) (by simp [revision_toBytes_length, toLE_length, timestamp_toBytes_length, hplg, hprg, hcr, hnt])]
    rw [sliceGet_append_right _ _ _ _ (by simp [revision_toBytes_length, toLE_length, timestamp_toBytes_length, hplg, hprg, hcr, hnt]) (by simp [revision_toBytes_length, toLE_length, timestamp_toBytes_length, hplg, hprg, hcr, hnt])]
    rw [sliceGet_append_right _ _ _ _ (by simp [revision_toBytes_length, toLE_length, timestamp_toBytes_length, hplg, hprg, hcr, hnt]) (by simp [revision_toBytes_length, toLE_length, timestamp_toBytes_length, hplg, hprg, hcr, hnt])]
    rw [sliceGet_append_right _ _ _ _ (by simp [revision_toBytes_length, toLE_length, timestamp_toBytes_length, hplg, hprg, hcr, hnt]) (by simp [revision_toBytes_length, toLE_length, timestamp_toBytes_length, hplg, hprg, hcr, hnt])]
    rw [sliceGet_append_right _ _ _ _ (by simp [revision_toBytes_length, toLE_length, timestamp_toBytes_length, hplg, hprg, hcr, hnt]) (by simp [revision_toBytes_length, toLE_length, timestamp_toBytes_length, hplg, hprg, hcr, hnt])]
    rw [sliceGet_append_right _ _ _ _ (by simp [revision_toBytes_length, toLE_length, timestamp_toBytes_length, hplg, hprg, hcr, hnt]) (by simp [revision_toBytes_length, toLE_length, timestamp_toBytes_length, hplg, hprg, hcr, hnt])]
    rw [sliceGet_append_right _ _ _ _ (by simp [revision_toBytes_length, toLE_length, timestamp_toBytes_length, hplg, hprg, hcr, hnt]) (by simp [revision_toBytes_length, toLE_length, timestamp_toBytes_length, hplg, hprg, hcr, hnt])]
    rw [sliceGet_append_right _ _ _ _ (by simp [revision_toBytes_length, toLE_length, timestamp_toBytes_length, hplg, hprg, hcr, hnt]) (by simp [revision_toBytes_length, toLE_length, timestamp_toBytes_length, hplg, hprg, hcr, hnt])]
    rw [sliceGet_append_right _ _ _ _ (by simp [revision_toBytes_length, toLE_length, timestamp_toBytes_length, hplg, hprg, hcr, hnt]) (by simp [revision_toBytes_length, toLE_length, timestamp_toBytes_length, hplg, hprg, hcr, hnt])]
    simp only [List.length_cons, List.length_nil, revision_toBytes_length, toLE_length, timestamp_toBytes_length, hplg, hprg, hcr, hnt]
    rw [sliceGet_exact _ _ _ (by simp [revision_toBytes_length, toLE_length, timestamp_toBytes_length, hplg, hprg, hcr, hnt])]
  have e64 : sliceGet h.toBytes 64 80 = some (h.creator_id) := by
    unfold CperHeader.toBytes
    rw [sliceGet_append_right _ _ _ _ (by simp [revision_toBytes_length, toLE_length, timestamp_toBytes_length, hplg, hprg, hcr, hnt]) (by simp [revision_toBytes_length, toLE_length, timestamp_toBytes_length, hplg, hprg, hcr, hnt])]
    rw [sliceGet_append_right _ _ _ _ (by simp [revision_toBytes_length, toLE_length, timestamp_toBytes_length, hplg, hprg, hcr, hnt]) (by simp [revision_toBytes_length, toLE_length, timestamp_toBytes_length, hplg, hprg, hcr, hnt])]
    rw [sliceGet_append_right _ _ _ _ (by simp [revision_toBytes_length, toLE_length, timestamp_toBytes_length, hplg, hprg, hcr, hnt]) (by simp [revision_toBytes_length, toLE_length, timestamp_toBytes_length, hplg, hprg, hcr, hnt])]
    rw [sliceGet_append_right _ _ _ _ (by simp [revision_toBytes_length, toLE_length, timestamp_toBytes_length, hplg, hprg, hcr, hnt]) (by simp [revision_toBytes_length, toLE_length, timestamp_toBytes_length, hplg, hprg, hcr, hnt])]
    rw [sliceGet_append_right _ _ _ _ (by simp [revision_toBytes_length, toLE_length, timestamp_toBytes_length, hplg, hprg, hcr, hnt]) (by simp [revision_toBytes_length, toLE_length, timestamp_toBytes_length, hplg, hprg, hcr, hnt])]
    rw [sliceGet_append_right _ _ _ _ (by simp [revision_toBytes_length, toLE_length, timestamp_toBytes_length, hplg, hprg, hcr, hnt]) (by simp [revision_toBytes_length, toLE_length, timestamp_toBytes_length, hplg, hprg, hcr, hnt])]
    rw [sliceGet_append_right _ _ _ _ (by simp [revision_toBytes_length, toLE_length, timestamp_toBytes_length, hplg, hprg, hcr, hnt]) (by simp [revision_toBytes_length, toLE_length, timestamp_toBytes_length, hplg, hprg, hcr, hnt])]
    rw [sliceGet_append_right _ _ _ _ (by simp [revision_toBytes_length, toLE_length, timestamp_toBytes_length, hplg, hprg, hcr, hnt]) (by simp [revision_toBytes_length, toLE_length, timestamp_toBytes_length, hplg, hprg, hcr, hnt])]
    rw [sliceGet_append_right _ _ _ _ (by simp [revision_toBytes_length, toLE_length, timestamp_toBytes_length, hplg, hprg, hcr, hnt]) (by simp [revision_toBytes_length, toLE_length, timestamp_toBytes_length, hplg, hprg, hcr, hnt])]
    rw [sliceGet_append_right _ _ _ _ (by simp [revision_toBytes_length, toLE_length, timestamp_toBytes_length, hplg, hprg, hcr, hnt]) (by simp [revision_toBytes_length, toLE_length, timestamp_toBytes_length, hplg, hprg, hcr, hnt])]
    simp only [List.length_cons, List.length_nil, revision_toBytes_length, toLE_length, timestamp_toBytes_length, hplg, hprg, hcr, hnt]
    rw [sliceGet_exact _ _ _ (by simp [revision_toBytes_length, toLE_length, timestamp_toBytes_length, hplg, hprg, hcr, hnt])]
  have e80 : sliceGet h.toBytes 80 96 = some (h.notification_type) := by
    unfold CperHeader.toBytes
    rw [sliceGet_append_right _ _ _ _ (by simp [revision_toBytes_length, toLE_length, timestamp_toBytes_length, hplg, hprg, hcr, hnt]) (by simp [revision_toBytes_length, toLE_length, timestamp_toBytes_length, hplg, hprg, hcr, hnt])]
    rw [sliceGet_append_right _ _ _ _ (by simp [revision_toBytes_length, toLE_length, timestamp_toBytes_length, hplg, hprg, hcr, hnt]) (by simp [revision_toBytes_length, toLE_length, timestamp_toBytes_length, hplg, hprg, hcr, hnt])]
    rw [sliceGet_append_right _ _ _ _ (by simp [revision_toBytes_length, toLE_length, timestamp_toBytes_length, hplg, hprg, hcr, hnt]) (by simp [revision_toBytes_length, toLE_length, timestamp_toBytes_length, hplg, hprg, hcr, hnt])]
    rw [sliceGet_append_right _ _ _ _ (by simp [revision_toBytes_length, toLE_length, timestamp_toBytes_length, hplg, hprg, hcr, hnt]) (by simp [revision_toBytes_length, toLE_length, timestamp_toBytes_length, hplg, hprg, hcr, hnt])]
    rw [sliceGet_append_right _ _ _ _ (by simp [revision_toBytes_length, toLE_length, timestamp_toBytes_length, hplg, hprg, hcr, hnt]) (by simp [revision_toBytes_length, toLE_length, timestamp_toBytes_length, hplg, hprg, hcr, hnt])]
    rw [sliceGet_append_right _ _ _ _ (by simp [revision_toBytes_length, toLE_length, timestamp_toBytes_length, hplg, hprg, hcr, hnt]) (by simp [revision_toBytes_length, toLE_length, timestamp_toBytes_length, hplg, hprg, hcr, hnt])]
    rw [sliceGet_append_right _ _ _ _ (by simp [revision_toBytes_length, toLE_length, timestamp_toBytes_length, hplg, hprg, hcr, hnt]) (by simp [revision_toBytes_length, toLE_length, timestamp_toBytes_length, hplg, hprg, hcr, hnt])]
    rw [sliceGet_append_right _ _ _ _ (by simp [revision_toBytes_length, toLE_length, timestamp_toBytes_length, hplg, hprg, hcr, hnt]) (by simp [revision_toBytes_length, toLE_length, timestamp_toBytes_length, hplg, hprg, hcr, hnt])]
    rw [sliceGet_append_right _ _ _ _ (by simp [revision_toBytes_length, toLE_length, timestamp_toBytes_length, hplg, hprg, hcr, hnt]) (by simp [revision_toBytes_length, toLE_length, timestamp_toBytes_length, hplg, hprg, hcr, hnt])]
    rw [sliceGet_append_right _ _ _ _ (by simp [revision_toBytes_length, toLE_length, timestamp_toBytes_length, hplg, hprg, hcr, hnt]) (by simp [revision_toBytes_length, toLE_length, timestamp_toBytes_length, hplg, hprg, hcr, hnt])]
    rw [sliceGet_append_right _ _ _ _ (by simp [revision_toBytes_length, toLE_length, timestamp_toBytes_length, hplg, hprg, hcr, hnt]) (by simp [revision_toBytes_length, toLE_length, timestamp_toBytes_length, hplg, hprg, hcr, hnt])]
    simp only [List.length_cons, List.length_nil, revision_toBytes_length, toLE_length, timestamp_toBytes_length, hplg, hprg, hcr, hnt]
    rw [sliceGet_exact _ _ _ (by simp [revision_toBytes_length, toLE_length, timestamp_toBytes_length, hplg, hprg, hcr, hnt])]
  have e96 : getLE h.toBytes 96 8 = some (fromLE (toLE 8 h.record_id)) := by
    unfold CperHeader.toBytes
    rw [getLE_append_right _ _ _ _ (by simp [revision_toBytes_length, toLE_length, timestamp_toBytes_length, hplg, hprg, hcr, hnt])]
    rw [getLE_append_right _ _ _ _ (by simp [revision_toBytes_length, toLE_length, timestamp_toBytes_length, hplg, hprg, hcr, hnt])]
    rw [getLE_append_right _ _ _ _ (by simp [revision_toBytes_length, toLE_length, timestamp_toBytes_length, hplg, hprg, hcr, hnt])]
    rw [getLE_append_right _ _ _ _ (by simp [revision_toBytes_length, toLE_length, timestamp_toBytes_length, hplg, hprg, hcr, hnt])]
    rw [getLE_append_right _ _ _ _ (by simp [revision_toBytes_length, toLE_length, timestamp_toBytes_length, hplg, hprg, hcr, hnt])]
    rw [getLE_append_right _ _ _ _ (by simp [revision_toBytes_length, toLE_length, timestamp_toBytes_length, hplg, hprg, hcr, hnt])]
    rw [getLE_append_right _ _ _ _ (by simp [revision_toBytes_length, toLE_length, timestamp_toBytes_length, hplg, hprg, hcr, hnt])]
    rw [getLE_append_right _ _ _ _ (by simp [revision_toBytes_length, toLE_length, timestamp_toBytes_length, hplg, hprg, hcr, hnt])]
    rw [getLE_append_right _ _ _ _ (by simp [revision_toBytes_length, toLE_length, timestamp_toBytes_length, hplg, hprg, hcr, hnt])]
    rw [getLE_append_right _ _ _ _ (by simp [revision_toBytes_length, toLE_length, timestamp_toBytes_length, hplg, hprg, hcr, hnt])]
    rw [getLE_append_right _ _ _ _ (by simp [revision_toBytes_length, toLE_length, timestamp_toBytes_length, hplg, hprg, hcr, hnt])]
    rw [getLE_append_right _ _ _ _ (by simp [revision_toBytes_length, toLE_length, timestamp_toBytes_length, hplg, hprg, hcr, hnt])]
    simp only [List.length_cons, List.length_nil, revision_toBytes_length, toLE_length, timestamp_toBytes_length, hplg, hprg, hcr, hnt]
    rw [getLE_exact _ _ _ (by simp [revision_toBytes_length, toLE_length, timestamp_toBytes_length, hplg, hprg, hcr, hnt])]
  have e104 : getLE h.toBytes 104 4 = some (fromLE (toLE 4 h.flags)) := by
    unfold CperHeader.toBytes
    rw [getLE_append_right _ _ _ _ (by simp [revision_toBytes_length, toLE_length, timestamp_toBytes_length, hplg, hprg, hcr, hnt])]
    rw [getLE_append_right _ _ _ _ (by simp [revision_toBytes_length, toLE_length, timestamp_toBytes_length, hplg, hprg, hcr, hnt])]
    rw [getLE_append_right _ _ _ _ (by simp [revision_toBytes_length, toLE_length, timestamp_toBytes_length, hplg, hprg, hcr, hnt])]
    rw [getLE_append_right _ _ _ _ (by simp [revision_toBytes_length, toLE_length, timestamp_toBytes_length, hplg, hprg, hcr, hnt])]
    rw [getLE_append_right _ _ _ _ (by simp [revision_toBytes_length, toLE_length, timestamp_toBytes_length, hplg, hprg, hcr, hnt])]
    rw [getLE_append_right _ _ _ _ (by simp [revision_toBytes_length, toLE_length, timestamp_toBytes_length, hplg, hprg, hcr, hnt])]
    rw [getLE_append_right _ _ _ _ (by simp [revision_toBytes_length, toLE_length, timestamp_toBytes_length, hplg, hprg, hcr, hnt])]
    rw [getLE_append_right _ _ _ _ (by simp [revision_toBytes_length, toLE_length, timestamp_toBytes_length, hplg, hprg, hcr, hnt])]
    rw [getLE_append_right _ _ _ _ (by simp [revision_toBytes_length, toLE_length, timestamp_toBytes_length, hplg, hprg, hcr, hnt])]
    rw [getLE_append_right _ _ _ _ (by simp [revision_toBytes_length, toLE_length, timestamp_toBytes_length, hplg, hprg, hcr, hnt])]
    rw [getLE_append_right _ _ _ _ (by simp [revision_toBytes_length, toLE_length, timestamp_toBytes_length, hplg, hprg, hcr, hnt])]
    rw [getLE_append_right _ _ _ _ (by simp [revision_toBytes_length, toLE_length, timestamp_toBytes_length, hplg, hprg, hcr, hnt])]
    rw [getLE_append_right _ _ _ _ (by simp [revision_toBytes_length, toLE_length, timestamp_toBytes_length, hplg, hprg, hcr, hnt])]
    simp only [List.length_cons, List.length_nil, revision_toBytes_length, toLE_length, timestamp_toBytes_length, hplg, hprg, hcr, hnt]
    rw [getLE_exact _ _ _ (by simp [revision_toBytes_length, toLE_length, timestamp_toBytes_length, hplg, hprg, hcr, hnt])]
  have e108 : getLE h.toBytes 108 8 = some (fromLE (toLE 8 h.persistence_information)) := by
    unfold CperHeader.toBytes
    rw [getLE_append_right _ _ _ _ (by simp [revision_toBytes_length, toLE_length, timestamp_toBytes_length, hplg, hprg, hcr, hnt])]
    rw [getLE_append_right _ _ _ _ (by simp [revision_toBytes_length, toLE_length, timestamp_toBytes_length, hplg, hprg, hcr, hnt])]
    rw [getLE_append_right _ _ _ _ (by simp [revision_toBytes_length, toLE_length, timestamp_toBytes_length, hplg, hprg, hcr, hnt])]
    rw [getLE_append_right _ _ _ _ (by simp [revision_toBytes_length, toLE_length, timestamp_toBytes_length, hplg, hprg, hcr, hnt])]
    rw [getLE_append_right _ _ _ _ (by simp [revision_toBytes_length, toLE_length, timestamp_toBytes_length, hplg, hprg, hcr, hnt])]
    rw [getLE_append_right _ _ _ _ (by simp [revision_toBytes_length, toLE_length, timestamp_toBytes_length, hplg, hprg, hcr, hnt])]
    rw [getLE_append_right _ _ _ _ (by simp [revision_toBytes_length, toLE_length, timestamp_toBytes_length, hplg, hprg, hcr, hnt])]
    rw [getLE_append_right _ _ _ _ (by simp [revision_toBytes_length, toLE_length, timestamp_toBytes_length, hplg, hprg, hcr, hnt])]
    rw [getLE_append_right _ _ _ _ (by simp [revision_toBytes_length, toLE_length, timestamp_toBytes_length, hplg, hprg, hcr, hnt])]
    rw [getLE_append_right _ _ _ _ (by simp [revision_toBytes_length, toLE_length, timestamp_toBytes_length, hplg, hprg, hcr, hnt])]
    rw [getLE_append_right _ _ _ _ (by simp [revision_toBytes_length, toLE_length, timestamp_toBytes_length, hplg, hprg, hcr, hnt])]
    rw [getLE_append_right _ _ _ _ (by simp [revision_toBytes_length, toLE_length, timestamp_toBytes_length, hplg, hprg, hcr, hnt])]
    rw [getLE_append_right _ _ _ _ (by simp [revision_toBytes_length, toLE_length, timestamp_toBytes_length, hplg, hprg, hcr, hnt])]
    rw [getLE_append_right _ _ _ _ (by simp [revision_toBytes_length, toLE_length, timestamp_toBytes_length, hplg, hprg, hcr, hnt])]
    simp only [List.length_cons, List.length_nil, revision_toBytes_length, toLE_length, timestamp_toBytes_length, hplg, hprg, hcr, hnt]
    rw [getLE_exact _ _ _ (by simp [revision_toBytes_length, toLE_length, timestamp_toBytes_length, hplg, hprg, hcr, hnt])]
  have cts : (h.validation_bits &&& 2 ≠ 0) ↔ h.timestamp.isSome := by
    rw [hvb]; exact vbits_test_ts h
  have cpl : (h.validation_bits &&& 1 ≠ 0) ↔ h.platform_id.isSome := by
    rw [hvb]; exact vbits_test_platform h
  have cpr : (h.validation_bits &&& 4 ≠ 0) ↔ h.partition_id.isSome := by
    rw [hvb]; exact vbits_test_partition h
  rcases hts : h.timestamp with _ | t <;>
    rcases hpl : h.platform_id with _ | pg <;>
    rcases hpr : h.partition_id with _ | qg <;>
    simp only [CperHeader.fromSlice, e0, e6, e4, e10, e12, e16, e20, e24, e32, e48, e64, e80,
      e96, e104, e108, Option.bind_eq_bind, Option.some_bind, Option.pure_def, Option.map_some',
      Option.getD_some, Option.getD_none, revision_roundtrip, timestamp_roundtrip,
      errorSeverity_roundtrip, fromLE_toLE 2 h.section_count hcnt2,
      fromLE_toLE 4 h.record_length hrl4, fromLE_toLE 8 h.record_id hrid8,
      fromLE_toLE 4 h.flags hfl4, fromLE_toLE 8 h.persistence_information hpi8,
      fromLE_toLE 4 h.validation_bits hvb4, cts, cpl, cpr, hts, hpl, hpr,
      Option.isSome_some, Option.isSome_none,
      eq_self_iff_true, and_self, if_true, if_false, Bool.false_eq_true, ite_true, ite_false] <;>
    exact congrArg some (cperHeader_eta h _ _ _ (by rw [hts]) (by rw [hpl]) (by rw [hpr]))

/-- Field bounds and GUID lengths of a CPER section descriptor. -/
def CperSectionDescriptorWF (d : CperSectionDescriptor) : Prop :=
  d.flags < 2 ^ 32 ∧ d.section_type.length = 16 ∧
  (match d.fru_id with | some g => g.length = 16 | none => True) ∧
  (match d.fru_text with | some t => t.length = 20 | none => True)

theorem dvbits_test_fru (d : CperSectionDescriptor) :
    CperSectionDescriptor.vbits d &&& 1 ≠ 0 ↔ d.fru_id.isSome := by
  rcases hf : d.fru_id <;> rcases ht : d.fru_text <;>
    simp [CperSectionDescriptor.vbits, hf, ht] <;> try decide

theorem dvbits_test_text (d : CperSectionDescriptor) :
    CperSectionDescriptor.vbits d &&& 2 ≠ 0 ↔ d.fru_text.isSome := by
  rcases hf : d.fru_id <;> rcases ht : d.fru_text <;>
    simp [CperSectionDescriptor.vbits, hf, ht] <;> try decide

theorem cperDescriptor_eta (d : CperSectionDescriptor) (fid : Option Guid)
    (ftx : Option (List Nat)) (h1 : fid = d.fru_id) (h2 : ftx = d.fru_text) :
    ({ section_offset := d.section_offset, section_length := d.section_length,
       revision := d.revision, validation_bits := d.validation_bits, flags := d.flags,
       section_type := d.section_type, fru_id := fid,
       section_severity := d.section_severity, fru_text := ftx } :
      CperSectionDescriptor) = d := by
  subst h1
  subst h2
  rfl

theorem cperDescriptor_toBytes_length (d : CperSectionDescriptor)
    (hwf : CperSectionDescriptorWF d) : d.toBytes.length = 72 := by
  obtain ⟨_, hst, hfru, htxt⟩ := hwf
  have hfg : (d.fru_id.getD guidZero).length = 16 := by
    rcases hp : d.fru_id with _ | g
    · rfl
    · rw [hp] at hfru; simpa using hfru
  have htg : (d.fru_text.getD (List.replicate 20 0)).length = 20 := by
    rcases hp : d.fru_text with _ | t
    · simp
    · rw [hp] at htxt; simpa using htxt
  simp only [CperSectionDescriptor.toBytes, List.length_append, toLE_length,
    revision_toBytes_length, hst, hfg, htg, List.length_cons, List.length_nil]

/-- Parsing the serialized section descriptor (with any bytes after it)
recovers it exactly, for a normalized, well-formed descriptor. -/
theorem cperDescriptor_roundtrip (d : CperSectionDescriptor) (rest : List Nat)
    (hwf : CperSectionDescriptorWF d) (hvb : d.validation_bits = CperSectionDescriptor.vbits d)
    (hoff : d.section_offset < 2 ^ 32) (hlen : d.section_length < 2 ^ 32) :
    CperSectionDescriptor.fromSlice (d.toBytes ++ rest) = some d := by
  obtain ⟨hflags, hst, hfru, htxt⟩ := hwf
  have hfg : (d.fru_id.getD guidZero).length = 16 := by
    rcases hp : d.fru_id with _ | g
    · rfl
    · rw [hp] at hfru; simpa using hfru
  have htg : (d.fru_text.getD (List.replicate 20 0)).length = 20 := by
    rcases hp : d.fru_text with _ | t
    · simp
    · rw [hp] at htxt; simpa using htxt
  have htgl : (d.fru_text.getD
      [0, 0, 0, 0, 0, 0, 0, 0, 0, 0, 0, 0, 0, 0, 0, 0, 0, 0, 0, 0]).length = 20 := htg
  have hoff4 : d.section_offset < 256 ^ 4 := by
    have : (256 : Nat) ^ 4 = 2 ^ 32 := by norm_num
    omega
  have hlen4 : d.section_length < 256 ^ 4 := by
    have : (256 : Nat) ^ 4 = 2 ^ 32 := by norm_num
    omega
  have hflags4 : d.flags < 256 ^ 4 := by
    have : (256 : Nat) ^ 4 = 2 ^ 32 := by norm_num
    omega
  have g0 : getLE (d.toBytes ++ rest) 0 4 = some (fromLE (toLE 4 d.section_offset)) := by
    unfold CperSectionDescriptor.toBytes
    simp only [List.append_assoc]
    rw [getLE_exact _ _ _ (by simp [revision_toBytes_length, toLE_length, hst, hfg, htg, htgl, List.length_cons, List.length_nil])]
  have g4 : getLE (d.toBytes ++ rest) 4 4 = some (fromLE (toLE 4 d.section_length)) := by
    unfold CperSectionDescriptor.toBytes
    simp only [List.append_assoc]
    rw [getLE_append_right _ _ _ _ (by simp [revision_toBytes_length, toLE_length, hst, hfg, htg, htgl, List.length_cons, List.length_nil])]
    simp only [revision_toBytes_length, toLE_length, hst, hfg, htg, htgl, List.length_cons, List.length_nil]
    rw [getLE_exact _ _ _ (by simp [revision_toBytes_length, toLE_length, hst, hfg, htg, htgl, List.length_cons, List.length_nil])]
  have g8 : sliceGet (d.toBytes ++ rest) 8 10 = some (d.revision.toBytes) := by
    unfold CperSectionDescriptor.toBytes
    simp only [List.append_assoc]
    rw [sliceGet_append_right _ _ _ _ (by simp [revision_toBytes_length, toLE_length, hst, hfg, htg, htgl, List.length_cons, List.length_nil]) (by simp [revision_toBytes_length, toLE_length, hst, hfg, htg, htgl, List.length_cons, List.length_nil])]
    rw [sliceGet_append_right _ _ _ _ (by simp [revision_toBytes_length, toLE_length, hst, hfg, htg, htgl, List.length_cons, List.length_nil]) (by simp [revision_toBytes_length, toLE_length, hst, hfg, htg, htgl, List.length_cons, List.length_nil])]
    simp only [revision_toBytes_length, toLE_length, hst, hfg, htg, htgl, List.length_cons, List.length_nil]
    rw [sliceGet_exact _ _ _ (by simp [revision_toBytes_length, toLE_length, hst, hfg, htg, htgl, List.length_cons, List.length_nil])]
  have g10 : (d.toBytes ++ rest).get? 10 = some d.validation_bits := by
    unfold CperSectionDescriptor.toBytes
    simp only [List.append_assoc]
    rw [get?_append_right _ _ _ (by simp [toLE_length])]
    rw [get?_append_right _ _ _ (by simp [toLE_length])]
    rw [get?_append_right _ _ _ (by simp [toLE_length, revision_toBytes_length])]
    simp only [toLE_length, revision_toBytes_length]
    rfl
  have g12 : getLE (d.toBytes ++ rest) 12 4 = some (fromLE (toLE 4 d.flags)) := by
    unfold CperSectionDescriptor.toBytes
    simp only [List.append_assoc]
    rw [getLE_append_right _ _ _ _ (by simp [revision_toBytes_length, toLE_length, hst, hfg, htg, htgl, List.length_cons, List.length_nil])]
    rw [getLE_append_right _ _ _ _ (by simp [revision_toBytes_length, toLE_length, hst, hfg, htg, htgl, List.length_cons, List.length_nil])]
    rw [getLE_append_right _ _ _ _ (by simp [revision_toBytes_length, toLE_length, hst, hfg, htg, htgl, List.length_cons, List.length_nil])]
    rw [getLE_append_right _ _ _ _ (by simp [revision_toBytes_length, toLE_length, hst, hfg, htg, htgl, List.length_cons, List.length_nil])]
    simp only [revision_toBytes_length, toLE_length, hst, hfg, htg, htgl, List.length_cons, List.length_nil]
    rw [getLE_exact _ _ _ (by simp [revision_toBytes_length, toLE_length, hst, hfg, htg, htgl, List.length_cons, List.length_nil])]
  have g16 : sliceGet (d.toBytes ++ rest) 16 32 = some (d.section_type) := by
    unfold CperSectionDescriptor.toBytes
    simp only [List.append_assoc]
    rw [sliceGet_append_right _ _ _ _ (by simp [revision_toBytes_length, toLE_length, hst, hfg, htg, htgl, List.length_cons, List.length_nil]) (by simp [revision_toBytes_length, toLE_length, hst, hfg, htg, htgl, List.length_cons, List.length_nil])]
    rw [sliceGet_append_right _ _ _ _ (by simp [revision_toBytes_length, toLE_length, hst, hfg, htg, htgl, List.length_cons, List.length_nil]) (by simp [revision_toBytes_length, toLE_length, hst, hfg, htg, htgl, List.length_cons, List.length_nil])]
    rw [sliceGet_append_right _ _ _ _ (by simp [revision_toBytes_length, toLE_length, hst, hfg, htg, htgl, List.length_cons, List.length_nil]) (by simp [revision_toBytes_length, toLE_length, hst, hfg, htg, htgl, List.length_cons, List.length_nil])]
    rw [sliceGet_append_right _ _ _ _ (by simp [revision_toBytes_length, toLE_length, hst, hfg, htg, htgl, List.length_cons, List.length_nil]) (by simp [revision_toBytes_length, toLE_length, hst, hfg, htg, htgl, List.length_cons, List.length_nil])]
    rw [sliceGet_append_right _ _ _ _ (by simp [revision_toBytes_length, toLE_length, hst, hfg, htg, htgl, List.length_cons, List.length_nil]) (by simp [revision_toBytes_length, toLE_length, hst, hfg, htg, htgl, List.length_cons, List.length_nil])]
    simp only [revision_toBytes_length, toLE_length, hst, hfg, htg, htgl, List.length_cons, List.length_nil]
    rw [sliceGet_exact _ _ _ (by simp [revision_toBytes_length, toLE_length, hst, hfg, htg, htgl, List.length_cons, List.length_nil])]
  have g32 : sliceGet (d.toBytes ++ rest) 32 48 = some (d.fru_id.getD guidZero) := by
    unfold CperSectionDescriptor.toBytes
    simp only [List.append_assoc]
    rw [sliceGet_append_right _ _ _ _ (by simp [revision_toBytes_length, toLE_length, hst, hfg, htg, htgl, List.length_cons, List.length_nil]) (by simp [revision_toBytes_length, toLE_length, hst, hfg, htg, htgl, List.length_cons, List.length_nil])]
    rw [sliceGet_append_right _ _ _ _ (by simp [revision_toBytes_length, toLE_length, hst, hfg, htg, htgl, List.length_cons, List.length_nil]) (by simp [revision_toBytes_length, toLE_length, hst, hfg, htg, htgl, List.length_cons, List.length_nil])]
    rw [sliceGet_append_right _ _ _ _ (by simp [revision_toBytes_length, toLE_length, hst, hfg, htg, htgl, List.length_cons, List.length_nil]) (by simp [revision_toBytes_length, toLE_length, hst, hfg, htg, htgl, List.length_cons, List.length_nil])]
    rw [sliceGet_append_right _ _ _ _ (by simp [revision_toBytes_length, toLE_length, hst, hfg, htg, htgl, List.length_cons, List.length_nil]) (by simp [revision_toBytes_length, toLE_length, hst, hfg, htg, htgl, List.length_cons, List.length_nil])]
    rw [sliceGet_append_right _ _ _ _ (by simp [revision_toBytes_length, toLE_length, hst, hfg, htg, htgl, List.length_cons, List.length_nil]) (by simp [revision_toBytes_length, toLE_length, hst, hfg, htg, htgl, List.length_cons, List.length_nil])]
    rw [sliceGet_append_right _ _ _ _ (by simp [revision_toBytes_length, toLE_length, hst, hfg, htg, htgl, List.length_cons, List.length_nil]) (by simp [revision_toBytes_length, toLE_length, hst, hfg, htg, htgl, List.length_cons, List.length_nil])]
    simp only [revision_toBytes_length, toLE_length, hst, hfg, htg, htgl, List.length_cons, List.length_nil]
    rw [sliceGet_exact _ _ _ (by simp [revision_toBytes_length, toLE_length, hst, hfg, htg, htgl, List.length_cons, List.length_nil])]
  have g48 : getLE (d.toBytes ++ rest) 48 4 = some (fromLE (toLE 4 d.section_severity.toU32)) := by
    unfold CperSectionDescriptor.toBytes
    simp only [List.append_assoc]
    rw [getLE_append_right _ _ _ _ (by simp [revision_toBytes_length, toLE_length, hst, hfg, htg, htgl, List.length_cons, List.length_nil])]
    rw [getLE_append_right _ _ _ _ (by simp [revision_toBytes_length, toLE_length, hst, hfg, htg, htgl, List.length_cons, List.length_nil])]
    rw [getLE_append_right _ _ _ _ (by simp [revision_toBytes_length, toLE_length, hst, hfg, htg, htgl, List.length_cons, List.length_nil])]
    rw [getLE_append_right _ _ _ _ (by simp [revision_toBytes_length, toLE_length, hst, hfg, htg, htgl, List.length_cons, List.length_nil])]
    rw [getLE_append_right _ _ _ _ (by simp [revision_toBytes_length, toLE_length, hst, hfg, htg, htgl, List.length_cons, List.length_nil])]
    rw [getLE_append_right _ _ _ _ (by simp [revision_toBytes_length, toLE_length, hst, hfg, htg, htgl, List.length_cons, List.length_nil])]
    rw [getLE_append_right _ _ _ _ (by simp [revision_toBytes_length, toLE_length, hst, hfg, htg, htgl, List.length_cons, List.length_nil])]
    simp only [revision_toBytes_length, toLE_length, hst, hfg, htg, htgl, List.length_cons, List.length_nil]
    rw [getLE_exact _ _ _ (by simp [revision_toBytes_length, toLE_length, hst, hfg, htg, htgl, List.length_cons, List.length_nil])]
  have g52 : sliceGet (d.toBytes ++ rest) 52 72 = some (d.fru_text.getD (List.replicate 20 0)) := by
    unfold CperSectionDescriptor.toBytes
    simp only [List.append_assoc]
    rw [sliceGet_append_right _ _ _ _ (by simp [revision_toBytes_length, toLE_length, hst, hfg, htg, htgl, List.length_cons, List.length_nil]) (by simp [revision_toBytes_length, toLE_length, hst, hfg, htg, htgl, List.length_cons, List.length_nil])]
    rw [sliceGet_append_right _ _ _ _ (by simp [revision_toBytes_length, toLE_length, hst, hfg, htg, htgl, List.length_cons, List.length_nil]) (by simp [revision_toBytes_length, toLE_length, hst, hfg, htg, htgl, List.length_cons, List.length_nil])]
    rw [sliceGet_append_right _ _ _ _ (by simp [revision_toBytes_length, toLE_length, hst, hfg, htg, htgl, List.length_cons, List.length_nil]) (by simp [revision_toBytes_length, toLE_length, hst, hfg, htg, htgl, List.length_cons, List.length_nil])]
    rw [sliceGet_append_right _ _ _ _ (by simp [revision_toBytes_length, toLE_length, hst, hfg, htg, htgl, List.length_cons, List.length_nil]) (by simp [revision_toBytes_length, toLE_length, hst, hfg, htg, htgl, List.length_cons, List.length_nil])]
    rw [sliceGet_append_right _ _ _ _ (by simp [revision_toBytes_length, toLE_length, hst, hfg, htg, htgl, List.length_cons, List.length_nil]) (by simp [revision_toBytes_length, toLE_length, hst, hfg, htg, htgl, List.length_cons, List.length_nil])]
    rw [sliceGet_append_right _ _ _ _ (by simp [revision_toBytes_length, toLE_length, hst, hfg, htg, htgl, List.length_cons, List.length_nil]) (by simp [revision_toBytes_length, toLE_length, hst, hfg, htg, htgl, List.length_cons, List.length_nil])]
    rw [sliceGet_append_right _ _ _ _ (by simp [revision_toBytes_length, toLE_length, hst, hfg, htg, htgl, List.length_cons, List.length_nil]) (by simp [revision_toBytes_length, toLE_length, hst, hfg, htg, htgl, List.length_cons, List.length_nil])]
    rw [sliceGet_append_right _ _ _ _ (by simp [revision_toBytes_length, toLE_length, hst, hfg, htg, htgl, List.length_cons, List.length_nil]) (by simp [revision_toBytes_length, toLE_length, hst, hfg, htg, htgl, List.length_cons, List.length_nil])]
    simp only [revision_toBytes_length, toLE_length, hst, hfg, htg, htgl, List.length_cons, List.length_nil]
    rw [sliceGet_exact _ _ _ (by simp [revision_toBytes_length, toLE_length, hst, hfg, htg, htgl, List.length_cons, List.length_nil])]
  have cfr : (d.validation_bits &&& 1 ≠ 0) ↔ d.fru_id.isSome := by
    rw [hvb]; exact dvbits_test_fru d
  have ctx : (d.validation_bits &&& 2 ≠ 0) ↔ d.fru_text.isSome := by
    rw [hvb]; exact dvbits_test_text d
  rcases hfi : d.fru_id with _ | fg <;>
    rcases hft : d.fru_text with _ | ft <;>
    simp only [CperSectionDescriptor.fromSlice, g0, g4, g8, g10, g12, g16, g32, g48, g52,
      Option.bind_eq_bind, Option.some_bind, Option.pure_def, Option.map_some',
      Option.getD_some, Option.getD_none, revision_roundtrip, sectionSeverity_roundtrip,
      fromLE_toLE 4 d.section_offset hoff4, fromLE_toLE 4 d.section_length hlen4,
      fromLE_toLE 4 d.flags hflags4, cfr, ctx, hfi, hft,
      Option.isSome_some, Option.isSome_none,
      eq_self_iff_true, and_self, if_true, if_false, Bool.false_eq_true, ite_true, ite_false] <;>
    exact congrArg some (cperDescriptor_eta d _ _ (by rw [hfi]) (by rw [hft]))

theorem ferHeader_toBytes_length (h : FirmwareErrorRecordHeader) (hg : h.guid.length = 16) :
    h.toBytes.length = 32 := by
  simp only [FirmwareErrorRecordHeader.toBytes, List.length_append, List.length_cons,
    List.length_nil, List.length_replicate, toLE_length, hg]

/-- Parsing a serialized FER (resized to any length `L ≥ 32`) recovers the
header exactly; the payload comes back resized to `L - 32`. -/
theorem fer_roundtrip (f : FirmwareErrorRecord) (L : Nat) (hrev : 2 ≤ f.header.revision)
    (hrid : f.header.record_identifier < 2 ^ 64) (hg : f.header.guid.length = 16)
    (hL : 32 ≤ L) :
    FirmwareErrorRecord.fromSlice (resize f.toBytes L) =
      some { header := f.header, payload := resize f.payload (L - 32) } := by
  have hh32 : f.header.toBytes.length = 32 := ferHeader_toBytes_length f.header hg
  have hrid8 : f.header.record_identifier < 256 ^ 8 := by
    have : (256 : Nat) ^ 8 = 2 ^ 64 := by norm_num
    omega
  have hbuf : resize f.toBytes L = f.header.toBytes ++ resize f.payload (L - 32) := by
    unfold FirmwareErrorRecord.toBytes
    rw [resize_append_of_le _ _ _ (by rw [hh32]; exact hL), hh32]
  rw [hbuf]
  have r1 : (f.header.toBytes ++ resize f.payload (L - 32)).get? 1 =
      some f.header.revision := by
    unfold FirmwareErrorRecordHeader.toBytes
    simp only [List.append_assoc]
    rfl
  have r0 : (f.header.toBytes ++ resize f.payload (L - 32)).get? 0 =
      some f.header.error_type := by
    unfold FirmwareErrorRecordHeader.toBytes
    simp only [List.append_assoc]
    rfl
  have r8 : getLE (f.header.toBytes ++ resize f.payload (L - 32)) 8 8 =
      some (fromLE (toLE 8 f.header.record_identifier)) := by
    unfold FirmwareErrorRecordHeader.toBytes
    simp only [List.append_assoc]
    rw [getLE_append_right _ _ _ _ (by simp)]
    rw [getLE_append_right _ _ _ _ (by simp)]
    simp only [List.length_cons, List.length_nil, List.length_replicate]
    rw [getLE_exact _ _ _ (by simp [toLE_length])]
  have r16 : sliceGet (f.header.toBytes ++ resize f.payload (L - 32)) 16 32 =
      some f.header.guid := by
    unfold FirmwareErrorRecordHeader.toBytes
    simp only [List.append_assoc]
    rw [sliceGet_append_right _ _ _ _ (by simp) (by simp)]
    rw [sliceGet_append_right _ _ _ _ (by simp) (by simp)]
    rw [sliceGet_append_right _ _ _ _ (by simp [toLE_length]) (by simp [toLE_length])]
    simp only [List.length_cons, List.length_nil, List.length_replicate, toLE_length]
    rw [sliceGet_exact _ _ _ hg]
  have rp32 : sliceFrom (f.header.toBytes ++ resize f.payload (L - 32)) 32 =
      some (resize f.payload (L - 32)) := sliceFrom_append _ _ _ hh32
  have hrevT : (2 ≤ f.header.revision) = True := eq_true hrev
  simp only [FirmwareErrorRecord.fromSlice, FirmwareErrorRecordHeader.fromSlice,
    FirmwareErrorRecordHeader.len, r1, r0, r8, r16, rp32,
    Option.bind_eq_bind, Option.some_bind, Option.pure_def, Option.map_some',
    fromLE_toLE 8 f.header.record_identifier hrid8, hrevT, if_true, ite_true]

/-- Well-formedness of a section for the round-trip: descriptor bounds, a
descriptor type matching the body's GUID, and for a firmware error record
body a header of revision ≥ 2 with a 16-byte GUID and a declared section
length of at least the 32 serialized header bytes; unknown bodies must not
use the firmware-error-record GUID. -/
def CperSectionWF (sec : CperSection) : Prop :=
  CperSectionDescriptorWF sec.descriptor ∧
  sec.descriptor.section_type = sec.body.guid ∧
  (match sec.body with
   | .firmwareErrorRecord f => 2 ≤ f.header.revision ∧
       f.header.record_identifier < 2 ^ 64 ∧ f.header.guid.length = 16 ∧
       32 ≤ sec.descriptor.section_length
   | .unknown g _ => g ≠ fwErrorRecordGuid)

theorem body_bytes_length (sec : CperSection) :
    sec.body_bytes.length = sec.descriptor.section_length :=
  resize_length _ _

/-- Parsing a section's serialized body bytes (with the section's own type
GUID) succeeds and yields a body that re-serializes to the same bytes. -/
theorem body_roundtrip (sec : CperSection) (hwf : CperSectionWF sec) :
    ∃ b', CperSectionBody.fromSlice sec.descriptor.section_type sec.body_bytes = some b' ∧
      resize b'.toBytes sec.descriptor.section_length = sec.body_bytes := by
  obtain ⟨_, hty, hbody⟩ := hwf
  rcases hb : sec.body with f | ⟨g, data⟩
  · rw [hb] at hty hbody
    obtain ⟨hrev, hrid, hg, hL⟩ := hbody
    have hbytes : sec.body_bytes = resize f.toBytes sec.descriptor.section_length := by
      unfold CperSection.body_bytes
      rw [hb]
      rfl
    have hh32 : f.header.toBytes.length = 32 := ferHeader_toBytes_length f.header hg
    refine ⟨.firmwareErrorRecord
      { header := f.header,
        payload := resize f.payload (sec.descriptor.section_length - 32) }, ?_, ?_⟩
    · rw [CperSectionBody.fromSlice, if_pos (by rw [hty]; rfl), hbytes,
        fer_roundtrip f sec.descriptor.section_length hrev hrid hg hL]
      rfl
    · show resize (FirmwareErrorRecord.toBytes _) _ = _
      rw [hbytes]
      unfold FirmwareErrorRecord.toBytes
      rw [resize_append_of_le _ _ _ (by rw [hh32]; exact hL), hh32,
        resize_of_length_eq _ _ (resize_length _ _),
        resize_append_of_le _ _ _ (by rw [hh32]; exact hL), hh32]
  · rw [hb] at hty hbody
    refine ⟨.unknown sec.descriptor.section_type sec.body_bytes, ?_, ?_⟩
    · rw [CperSectionBody.fromSlice, if_neg (by rw [hty]; exact hbody)]
    · show resize sec.body_bytes _ = _
      exact resize_of_length_eq _ _ (body_bytes_length sec)

theorem flatten_length_const (blocks : List (List Nat)) (w : Nat)
    (h : ∀ b ∈ blocks, b.length = w) : blocks.flatten.length = w * blocks.length := by
  induction blocks with
  | nil => simp
  | cons b bs ih =>
    simp only [List.flatten_cons, List.length_append, List.length_cons,
      h b (List.mem_cons_self b bs), ih (fun x hx => h x (List.mem_cons_of_mem b hx))]
    ring

theorem flatten_uniform_drop (w : Nat) :
    ∀ (i : Nat) (blocks : List (List Nat)) (tail : List Nat),
    (∀ b ∈ blocks, b.length = w) → i ≤ blocks.length →
    (blocks.flatten ++ tail).drop (w * i) = (blocks.drop i).flatten ++ tail := by
  intro i
  induction i with
  | zero => intro blocks tail _ _; simp
  | succ j ih =>
    intro blocks tail hb hi
    match blocks with
    | [] => simp at hi
    | b :: bs =>
      have hbw : b.length = w := hb b (List.mem_cons_self b bs)
      have e1 : (b :: bs).flatten ++ tail = b ++ (bs.flatten ++ tail) := by
        simp [List.append_assoc]
      rw [e1]
      have e2 : w * (j + 1) = b.length + w * j := by rw [hbw]; ring
      rw [e2, ← List.drop_drop, List.drop_left]
      exact ih bs tail (fun x hx => hb x (List.mem_cons_of_mem b hx)) (by simpa using hi)

theorem flatten_drop_sum :
    ∀ (i : Nat) (blocks : List (List Nat)) (tail : List Nat),
    (blocks.flatten ++ tail).drop (((blocks.take i).map List.length).sum) =
      (blocks.drop i).flatten ++ tail := by
  intro i
  induction i with
  | zero => intro blocks tail; simp
  | succ j ih =>
    intro blocks tail
    match blocks with
    | [] => simp
    | b :: bs =>
      simp only [List.take_succ_cons, List.map_cons, List.sum_cons, List.drop_succ_cons]
      have e1 : (b :: bs).flatten ++ tail = b ++ (bs.flatten ++ tail) := by
        simp [List.append_assoc]
      rw [e1, ← List.drop_drop, List.drop_left]
      exact ih bs tail

theorem filterMap_eq_map_getD (l : List Nat) (f : Nat → Option CperSection)
    (d : CperSection) (h : ∀ x ∈ l, (f x).isSome) :
    l.filterMap f = l.map (fun x => (f x).getD d) := by
  induction l with
  | nil => rfl
  | cons a t ih =>
    have ha := h a (List.mem_cons_self a t)
    rcases hfa : f a with _ | v
    · rw [hfa] at ha; simp at ha
    · rw [List.filterMap_cons, hfa, List.map_cons, hfa]
      simp only [Option.getD_some]
      rw [ih (fun x hx => h x (List.mem_cons_of_mem a hx))]

/-- Pointwise match of section lists: equal descriptors and equal serialized
body bytes (the claim's structural equality on sections). -/
def sectionsMatch : List CperSection → List CperSection → Prop
  | [], [] => True
  | a :: as, b :: bs =>
    (a.descriptor = b.descriptor ∧ CperSection.body_bytes a = CperSection.body_bytes b) ∧
    sectionsMatch as bs
  | _, _ => False

instance sectionsMatchDecidable : (xs ys : List CperSection) → Decidable (sectionsMatch xs ys)
  | [], [] => .isTrue trivial
  | [], _ :: _ => .isFalse id
  | _ :: _, [] => .isFalse id
  | a :: as, b :: bs =>
    @instDecidableAnd _ _ instDecidableAnd (sectionsMatchDecidable as bs)

/-- The claim's structural equality of CPERs: equal header fields, equal
section count, and per-section equal descriptors and body bytes. -/
def cperStructEq (a b : Cper) : Prop :=
  a.record_header = b.record_header ∧ a.sections.length = b.sections.length ∧
  sectionsMatch a.sections b.sections

instance cperStructEqDecidable (a b : Cper) : Decidable (cperStructEq a b) :=
  @instDecidableAnd _ _ (instDecidableEqCperHeader _ _)
    (@instDecidableAnd _ _ (Nat.decEq _ _) (sectionsMatchDecidable _ _))

theorem sectionsMatch_of_getElem? :
    ∀ (xs ys : List CperSection), xs.length = ys.length →
    (∀ i, i < xs.length →
      (xs[i]?).map (fun s => s.descriptor) = (ys[i]?).map (fun s => s.descriptor) ∧
      (xs[i]?).map CperSection.body_bytes = (ys[i]?).map CperSection.body_bytes) →
    sectionsMatch xs ys := by
  intro xs
  induction xs with
  | nil =>
    intro ys hlen _
    match ys with
    | [] => trivial
    | _ :: _ => simp at hlen
  | cons a as ih =>
    intro ys hlen hpt
    match ys with
    | [] => simp at hlen
    | b :: bs =>
      have h0 := hpt 0 (by simp)
      simp only [List.getElem?_cons_zero, Option.map_some'] at h0
      refine ⟨⟨Option.some.inj h0.1, Option.some.inj h0.2⟩, ?_⟩
      refine ih bs (by simpa using hlen) ?_
      intro i hi
      have := hpt (i + 1) (by simpa using Nat.succ_lt_succ hi)
      simpa only [List.getElem?_cons_succ] using this

theorem sumLens_eq_of_getElem? (xs ys : List CperSection) (hlen : xs.length = ys.length)
    (h : ∀ i, i < xs.length →
      (xs[i]?).map (fun s => s.descriptor.section_length) =
      (ys[i]?).map (fun s => s.descriptor.section_length)) :
    ∀ i, sumLens (xs.take i) = sumLens (ys.take i) := by
  have hmap : xs.map (fun s => s.descriptor.section_length) =
      ys.map (fun s => s.descriptor.section_length) := by
    apply List.ext_getElem?
    intro n
    by_cases hn : n < xs.length
    · simpa using h n hn
    · rw [List.getElem?_map, List.getElem?_map, List.getElem?_eq_none (by omega),
        List.getElem?_eq_none (by omega)]
  intro i
  unfold sumLens
  rw [List.map_take, List.map_take, hmap]

theorem sumLens_take_succ (ss : List CperSection) :
    ∀ (i : Nat) (x : CperSection), ss[i]? = some x →
    sumLens (ss.take (i + 1)) = sumLens (ss.take i) + x.descriptor.section_length := by
  induction ss with
  | nil => intro i x hx; simp at hx
  | cons a t ih =>
    intro i x hx
    cases i with
    | zero =>
      simp only [List.getElem?_cons_zero, Option.some.injEq] at hx
      subst hx
      simp [sumLens]
    | succ j =>
      simp only [List.getElem?_cons_succ] at hx
      simp only [List.take_succ_cons, sumLens_cons, ih j x hx]
      omega

theorem normalizeSections_sumLens_take (ss : List CperSection) :
    ∀ (cursor i : Nat), sumLens (((normalizeSections cursor ss).1).take i) =
      sumLens (ss.take i) := by
  induction ss with
  | nil => intro cursor i; rfl
  | cons s t ih =>
    intro cursor i
    cases i with
    | zero => rfl
    | succ j =>
      rw [normalizeSections]
      simp only [List.take_succ_cons, sumLens_cons]
      rw [ih (cursor + s.descriptor.section_length) j]
      rfl

theorem normalizeSections_sumLens (ss : List CperSection) (cursor : Nat) :
    sumLens ((normalizeSections cursor ss).1) = sumLens ss := by
  have h := normalizeSections_sumLens_take ss cursor ss.length
  rwa [List.take_of_length_le (le_of_eq (normalizeSections_length ss cursor)),
    List.take_length] at h

/-- Default section used with `Option.getD` in the round-trip proof. -/
def defaultSection : CperSection :=
  { descriptor :=
      { section_offset := 0, section_length := 0, revision := { major := 0, minor := 0 },
        validation_bits := 0, flags := 0, section_type := guidZero, fru_id := none,
        section_severity := .informational, fru_text := none },
    body := .unknown guidZero [] }

theorem flatten_drop_sum' (i : Nat) (blocks : List (List Nat)) :
    blocks.flatten.drop (((blocks.take i).map List.length).sum) = (blocks.drop i).flatten := by
  have h := flatten_drop_sum i blocks []
  simpa using h

theorem sliceGet_of_drop (s chunk rest : List Nat) (a b : Nat)
    (hd : s.drop a = chunk ++ rest) (hn : chunk.length = b - a) (hab : a ≤ b)
    (hle : b ≤ s.length) : sliceGet s a b = some chunk := by
  unfold sliceGet
  rw [if_pos ⟨hab, hle⟩, hd, List.take_left' hn]

/-- Re-normalizing a header whose count and length are already correct and
whose validation bits already match its optional fields is the identity. -/
theorem cperHeader_norm_update_self (h : CperHeader) (a b : Nat)
    (ha : a = h.section_count) (hb : b = h.record_length)
    (hv : h.validation_bits = CperHeader.vbits h) :
    CperHeader.normalize { h with section_count := a, record_length := b } = h := by
  subst ha
  subst hb
  rw [cperHeader_normalize_eq]
  show ({ h with validation_bits := CperHeader.vbits h } : CperHeader) = h
  rw [← hv]

/-- Re-normalizing a descriptor and restoring an offset it already carries is
the identity when its validation bits already match its optional fields. -/
theorem cperDescriptor_norm_update_self (d : CperSectionDescriptor) (o : Nat)
    (ho : o = d.section_offset)
    (hv : d.validation_bits = CperSectionDescriptor.vbits d) :
    ({ CperSectionDescriptor.normalize d with section_offset := o } :
      CperSectionDescriptor) = d := by
  subst ho
  rw [cperDescriptor_normalize_eq]
  show
    ({ d with
        validation_bits := CperSectionDescriptor.vbits d
        section_offset := d.section_offset } : CperSectionDescriptor) = d
  rw [← hv]

/-- The section list `Cper::from_slice` rebuilds from a serialized normalized
CPER: each index of `0..N` decoded by `Cper.parseSection`. -/
def reparsedSections (c : Cper) : List CperSection :=
  (List.range c.sections.length).map
    (fun i => (Cper.parseSection (Cper.toBytes (Cper.normalize c)) i).getD defaultSection)

/-- C1 (amended): the round-trip `Cper::from_slice (Cper::to_bytes (normalize c))`
succeeds and is structurally faithful — equal header fields, equal section
count, equal per-section descriptors and body bytes — provided the sections
are well-formed for serialization (each descriptor's `section_type` equals its
body's GUID; firmware-error-record bodies have revision ≥ 2 and a declared
length covering their 32-byte serialized header; unknown bodies do not carry
the firmware-error-record GUID), the section count fits in `u16`, and the
total record length fits in `u32`. The unamended claim (every `Cper`) is
refuted by `c1_cper_roundtrip_counterexample`. -/
theorem c1_cper_roundtrip_amended (c : Cper)
    (hhwf : CperHeaderWF c.record_header)
    (hswf : ∀ sec ∈ c.sections, CperSectionWF sec)
    (hN : c.sections.length < 2 ^ 16)
    (hT : 128 + 72 * c.sections.length + sumLens c.sections < 2 ^ 32) :
    ∃ c', Cper.fromSlice (Cper.toBytes (Cper.normalize c)) = some c' ∧
      cperStructEq c' (Cper.normalize c) := by
  have hcnt' : (Cper.normalize c).record_header.section_count = c.sections.length := by
    show c.sections.length % 2 ^ 16 = _
    exact Nat.mod_eq_of_lt hN
  have hrl' : (Cper.normalize c).record_header.record_length =
      128 + 72 * c.sections.length + sumLens c.sections := by
    show (normalizeSections (128 + 72 * c.sections.length) c.sections).2 % 2 ^ 32 = _
    rw [normalizeSections_snd]
    exact Nat.mod_eq_of_lt hT
  have hvb' : (Cper.normalize c).record_header.validation_bits =
      CperHeader.vbits ((Cper.normalize c).record_header) := rfl
  have hhwf' : CperHeaderWF ((Cper.normalize c).record_header) := hhwf
  have hH128 : ((Cper.normalize c).record_header).toBytes.length = 128 :=
    cperHeader_toBytes_length _ hhwf'
  have hnslen : (Cper.normalize c).sections.length = c.sections.length := by
    show ((normalizeSections (128 + 72 * c.sections.length) c.sections).1).length = _
    exact normalizeSections_length c.sections _
  have hnsget : ∀ i, ((Cper.normalize c).sections)[i]? = ((c.sections)[i]?).map
      (fun s : CperSection => ({ s with descriptor := { s.descriptor.normalize with
        section_offset :=
          (128 + 72 * c.sections.length + sumLens (c.sections.take i)) % 2 ^ 32 } }
        : CperSection)) := by
    intro i
    show ((normalizeSections (128 + 72 * c.sections.length) c.sections).1)[i]? = _
    exact normalizeSections_get? c.sections (128 + 72 * c.sections.length) i
  have key : ∀ i, i < c.sections.length → ∃ nsi,
      ((Cper.normalize c).sections)[i]? = some nsi ∧
      CperSectionWF nsi ∧
      nsi.descriptor.validation_bits = CperSectionDescriptor.vbits nsi.descriptor ∧
      nsi.descriptor.section_offset =
        128 + 72 * c.sections.length + sumLens (c.sections.take i) ∧
      sumLens (c.sections.take i) + nsi.descriptor.section_length =
        sumLens (c.sections.take (i + 1)) := by
    intro i hi
    obtain ⟨x, hx⟩ : ∃ x, (c.sections)[i]? = some x :=
      ⟨c.sections[i], List.getElem?_eq_getElem hi⟩
    have hxwf : CperSectionWF x := hswf x (List.mem_iff_getElem?.2 ⟨i, hx⟩)
    have hpre := sumLens_take_le c.sections i
    refine ⟨{ x with descriptor := { x.descriptor.normalize with section_offset :=
        (128 + 72 * c.sections.length + sumLens (c.sections.take i)) % 2 ^ 32 } },
      ?_, ?_, ?_, ?_, ?_⟩
    · rw [hnsget i, hx]
      rfl
    · exact hxwf
    · rfl
    · show (128 + 72 * c.sections.length + sumLens (c.sections.take i)) % 2 ^ 32 = _
      exact Nat.mod_eq_of_lt (by omega)
    · show sumLens (c.sections.take i) + x.descriptor.section_length = _
      rw [sumLens_take_succ c.sections i x hx]
  have hdWF : ∀ b ∈ (Cper.normalize c).sections.map (fun s => s.descriptor.toBytes),
      b.length = 72 := by
    intro b hb
    obtain ⟨sec, hsec, hbe⟩ := List.mem_map.1 hb
    obtain ⟨j, hj⟩ := List.getElem?_of_mem hsec
    obtain ⟨hjlt, -⟩ := List.getElem?_eq_some.1 hj
    have hjlt' : j < c.sections.length := by rwa [hnslen] at hjlt
    obtain ⟨nsi, hget, hwfi, -, -, -⟩ := key j hjlt'
    have hne : nsi = sec := Option.some.inj (hget.symm.trans hj)
    rw [← hbe, ← hne]
    exact cperDescriptor_toBytes_length nsi.descriptor hwfi.1
  have hDlen :
      (((Cper.normalize c).sections.map (fun s => s.descriptor.toBytes)).flatten).length =
      72 * c.sections.length := by
    rw [flatten_length_const _ 72 hdWF, List.length_map, hnslen]
  have hbodymap : (((Cper.normalize c).sections.map CperSection.body_bytes).map List.length) =
      (Cper.normalize c).sections.map (fun s => s.descriptor.section_length) := by
    rw [List.map_map]
    exact List.map_congr_left (fun s _ => body_bytes_length s)
  have hPlen : (((Cper.normalize c).sections.map CperSection.body_bytes).flatten).length =
      sumLens c.sections := by
    rw [List.length_flatten, hbodymap]
    show sumLens ((normalizeSections (128 + 72 * c.sections.length) c.sections).1) = _
    exact normalizeSections_sumLens c.sections _
  have hBlen : (Cper.toBytes (Cper.normalize c)).length =
      128 + 72 * c.sections.length + sumLens c.sections := by
    unfold Cper.toBytes
    rw [List.length_append, List.length_append, hH128, hDlen, hPlen]
    omega
  have phdr : sliceGet (Cper.toBytes (Cper.normalize c)) 0 128 =
      some ((Cper.normalize c).record_header.toBytes) := by
    unfold Cper.toBytes
    exact sliceGet_exact _ _ _ hH128
  have phdr2 : CperHeader.fromSlice ((Cper.normalize c).record_header.toBytes) =
      some ((Cper.normalize c).record_header) :=
    cperHeader_roundtrip _ hhwf' hvb' (by rw [hcnt']; exact hN) (by rw [hrl']; exact hT)
  have hparse : ∀ i, i < c.sections.length → ∃ nsi b',
      ((Cper.normalize c).sections)[i]? = some nsi ∧
      nsi.descriptor.section_offset =
        128 + 72 * c.sections.length + sumLens (c.sections.take i) ∧
      nsi.descriptor.validation_bits = CperSectionDescriptor.vbits nsi.descriptor ∧
      sumLens (c.sections.take i) + nsi.descriptor.section_length =
        sumLens (c.sections.take (i + 1)) ∧
      Cper.parseSection (Cper.toBytes (Cper.normalize c)) i =
        some { descriptor := nsi.descriptor, body := b' } ∧
      resize (CperSectionBody.toBytes b') nsi.descriptor.section_length =
        CperSection.body_bytes nsi := by
    intro i hi
    obtain ⟨nsi, hget, hwfi, hvbi, hoffi, hsucci⟩ := key i hi
    have hilt : i < (Cper.normalize c).sections.length := by rw [hnslen]; exact hi
    have hnsget_i : ((Cper.normalize c).sections)[i] = nsi :=
      Option.some.inj ((List.getElem?_eq_getElem hilt).symm.trans hget)
    have hpre := sumLens_take_le c.sections i
    have hsle := sumLens_take_le c.sections (i + 1)
    have hs1 : sliceFrom (Cper.toBytes (Cper.normalize c)) (128 + i * 72) =
        some ((Cper.toBytes (Cper.normalize c)).drop (128 + i * 72)) := by
      unfold sliceFrom
      rw [if_pos (by rw [hBlen]; omega)]
    have hdrop1 : (Cper.toBytes (Cper.normalize c)).drop (128 + i * 72) =
        nsi.descriptor.toBytes ++
        ((((Cper.normalize c).sections.drop (i + 1)).map
            (fun s => s.descriptor.toBytes)).flatten ++
         ((Cper.normalize c).sections.map CperSection.body_bytes).flatten) := by
      unfold Cper.toBytes
      rw [drop_append_middle _ _ _ (by rw [hH128]; omega), hH128]
      have e1 : 128 + i * 72 - 128 = 72 * i := by omega
      rw [e1, flatten_uniform_drop 72 i _ _ hdWF (by rw [List.length_map, hnslen]; omega),
        ← List.map_drop, List.drop_eq_getElem_cons hilt, hnsget_i, List.map_cons,
        List.flatten_cons, List.append_assoc]
    have hoffb : nsi.descriptor.section_offset < 2 ^ 32 := by
      rw [hoffi]
      omega
    have hlenb : nsi.descriptor.section_length < 2 ^ 32 := by omega
    have hs2 : CperSectionDescriptor.fromSlice
        ((Cper.toBytes (Cper.normalize c)).drop (128 + i * 72)) = some nsi.descriptor := by
      rw [hdrop1]
      exact cperDescriptor_roundtrip nsi.descriptor _ hwfi.1 hvbi hoffb hlenb
    have epre :
        (((((Cper.normalize c).sections.map CperSection.body_bytes).take i).map
          List.length)).sum = sumLens (c.sections.take i) := by
      rw [List.map_take, hbodymap, ← List.map_take]
      exact normalizeSections_sumLens_take c.sections (128 + 72 * c.sections.length) i
    have hdropP : (Cper.toBytes (Cper.normalize c)).drop
        (128 + 72 * c.sections.length + sumLens (c.sections.take i)) =
        CperSection.body_bytes nsi ++
        (((Cper.normalize c).sections.drop (i + 1)).map CperSection.body_bytes).flatten := by
      unfold Cper.toBytes
      rw [drop_append_middle _ _ _ (by rw [hH128]; omega), hH128]
      have e1 : 128 + 72 * c.sections.length + sumLens (c.sections.take i) - 128 =
          72 * c.sections.length + sumLens (c.sections.take i) := by omega
      rw [e1, ← List.drop_drop,
        flatten_uniform_drop 72 c.sections.length _ _ hdWF
          (by rw [List.length_map, hnslen]),
        ← List.map_drop]
      have ed : (Cper.normalize c).sections.drop c.sections.length = [] := by
        rw [← hnslen]
        exact List.drop_length _
      rw [ed]
      simp only [List.map_nil, List.flatten_nil, List.nil_append]
      rw [← epre, flatten_drop_sum', ← List.map_drop, List.drop_eq_getElem_cons hilt,
        hnsget_i, List.map_cons, List.flatten_cons]
    have hs3 : sliceGet (Cper.toBytes (Cper.normalize c)) nsi.descriptor.section_offset
        (nsi.descriptor.section_offset + nsi.descriptor.section_length) =
        some (CperSection.body_bytes nsi) := by
      refine sliceGet_of_drop _ (CperSection.body_bytes nsi)
        ((((Cper.normalize c).sections.drop (i + 1)).map CperSection.body_bytes).flatten)
        _ _ ?_ ?_ ?_ ?_
      · rw [hoffi]
        exact hdropP
      · rw [body_bytes_length]
        omega
      · omega
      · rw [hBlen, hoffi]
        omega
    obtain ⟨b', hb1, hb2⟩ := body_roundtrip nsi hwfi
    refine ⟨nsi, b', hget, hoffi, hvbi, hsucci, ?_, hb2⟩
    simp only [Cper.parseSection, hs1, hs2, hs3, hb1, Option.bind_eq_bind,
      Option.some_bind, Option.pure_def]
  have hslen : (reparsedSections c).length = c.sections.length := by
    simp only [reparsedSections, List.length_map, List.length_range]
  have hsget : ∀ i, i < c.sections.length → ∃ nsi b',
      ((Cper.normalize c).sections)[i]? = some nsi ∧
      (reparsedSections c)[i]? = some ({ descriptor := nsi.descriptor, body := b' } :
        CperSection) ∧
      nsi.descriptor.section_offset =
        128 + 72 * c.sections.length + sumLens (c.sections.take i) ∧
      nsi.descriptor.validation_bits = CperSectionDescriptor.vbits nsi.descriptor ∧
      resize (CperSectionBody.toBytes b') nsi.descriptor.section_length =
        CperSection.body_bytes nsi := by
    intro i hi
    obtain ⟨nsi, b', hget, hoffi, hvbi, -, hp, hres⟩ := hparse i hi
    refine ⟨nsi, b', hget, ?_, hoffi, hvbi, hres⟩
    simp only [reparsedSections, List.getElem?_map, List.getElem?_range hi,
      Option.map_some', hp, Option.getD_some]
  have hLptw : ∀ i, i < (reparsedSections c).length →
      ((reparsedSections c)[i]?).map (fun s => s.descriptor.section_length) =
      (((Cper.normalize c).sections)[i]?).map (fun s => s.descriptor.section_length) := by
    intro i hi0
    have hi : i < c.sections.length := by rwa [hslen] at hi0
    obtain ⟨nsi, b', hget, hsg, -, -, -⟩ := hsget i hi
    rw [hsg, hget]
    rfl
  have hsum_take : ∀ j, sumLens ((reparsedSections c).take j) =
      sumLens (c.sections.take j) := by
    intro j
    rw [sumLens_eq_of_getElem? (reparsedSections c) (Cper.normalize c).sections
      (by rw [hslen, hnslen]) hLptw j]
    exact normalizeSections_sumLens_take c.sections (128 + 72 * c.sections.length) j
  have hsum' : sumLens (reparsedSections c) = sumLens c.sections := by
    have h2 := hsum_take (reparsedSections c).length
    rw [List.take_length, hslen, List.take_length] at h2
    exact h2
  have hfm2 : (List.range c.sections.length).filterMap
      (Cper.parseSection (Cper.toBytes (Cper.normalize c))) = reparsedSections c := by
    show _ = (List.range c.sections.length).map
      (fun i => (Cper.parseSection (Cper.toBytes (Cper.normalize c)) i).getD defaultSection)
    apply filterMap_eq_map_getD
    intro x hx
    have hxlt : x < c.sections.length := List.mem_range.1 hx
    obtain ⟨nsi, b', -, -, -, -, hp, -⟩ := hparse x hxlt
    rw [hp]
    rfl
  have hlen4 : (Cper.normalize
      { record_header := (Cper.normalize c).record_header
        sections := reparsedSections c }).sections.length =
      (Cper.normalize c).sections.length := by
    show ((normalizeSections (128 + 72 * (reparsedSections c).length)
      (reparsedSections c)).1).length = _
    rw [normalizeSections_length, hslen, hnslen]
  have ha : (reparsedSections c).length % 2 ^ 16 =
      (Cper.normalize c).record_header.section_count := by
    rw [hslen, hcnt']
    exact Nat.mod_eq_of_lt hN
  have hb : (normalizeSections (128 + 72 * (reparsedSections c).length)
      (reparsedSections c)).2 % 2 ^ 32 = (Cper.normalize c).record_header.record_length := by
    rw [normalizeSections_snd, hsum', hslen, hrl']
    exact Nat.mod_eq_of_lt hT
  refine ⟨Cper.normalize
    { record_header := (Cper.normalize c).record_header
      sections := reparsedSections c }, ?_, ?_, ?_, ?_⟩
  · unfold Cper.fromSlice
    rw [phdr, Option.bind_eq_bind, Option.some_bind]
    beta_reduce
    rw [phdr2, Option.bind_eq_bind, Option.some_bind]
    beta_reduce
    rw [hcnt', hfm2]
    exact rfl
  · exact cperHeader_norm_update_self ((Cper.normalize c).record_header) _ _ ha hb hvb'
  · exact hlen4
  · refine sectionsMatch_of_getElem? _ _ hlen4 ?_
    intro i hi0
    have hi : i < c.sections.length := by
      rw [hlen4, hnslen] at hi0
      exact hi0
    obtain ⟨nsi, b', hget, hsg, hoffi, hvbi, hres⟩ := hsget i hi
    have hpre := sumLens_take_le c.sections i
    have hcg : (Cper.normalize
        { record_header := (Cper.normalize c).record_header
          sections := reparsedSections c }).sections[i]? =
        some ({ descriptor :=
                  { CperSectionDescriptor.normalize nsi.descriptor with
                    section_offset := (128 + 72 * (reparsedSections c).length +
                      sumLens ((reparsedSections c).take i)) % 2 ^ 32 }
                body := b' } : CperSection) := by
      show ((normalizeSections (128 + 72 * (reparsedSections c).length)
        (reparsedSections c)).1)[i]? = _
      rw [normalizeSections_get? (reparsedSections c)
        (128 + 72 * (reparsedSections c).length) i, hsg]
      rfl
    have hX : (128 + 72 * (reparsedSections c).length +
        sumLens ((reparsedSections c).take i)) % 2 ^ 32 =
        nsi.descriptor.section_offset := by
      rw [hslen, hsum_take i, hoffi]
      exact Nat.mod_eq_of_lt (by omega)
    have hdd : ({ CperSectionDescriptor.normalize nsi.descriptor with
        section_offset := (128 + 72 * (reparsedSections c).length +
          sumLens ((reparsedSections c).take i)) % 2 ^ 32 } :
        CperSectionDescriptor) = nsi.descriptor :=
      cperDescriptor_norm_update_self nsi.descriptor _ hX hvbi
    constructor
    · rw [hcg, hget]
      simp only [Option.map_some']
      exact congrArg some hdd
    · rw [hcg, hget]
      simp only [Option.map_some']
      refine congrArg some ?_
      show resize (CperSectionBody.toBytes b')
        (({ CperSectionDescriptor.normalize nsi.descriptor with
          section_offset := (128 + 72 * (reparsedSections c).length +
            sumLens ((reparsedSections c).take i)) % 2 ^ 32 } :
          CperSectionDescriptor).section_length) = CperSection.body_bytes nsi
      exact hres

/-- C1 witness: the amended round-trip theorem applied to the concrete
one-section CPER `c8Cper`, with each hypothesis discharged concretely. -/
theorem c1_cper_roundtrip_amended_witness :
    CperHeaderWF c8Cper.record_header ∧
    (∀ sec ∈ c8Cper.sections, CperSectionWF sec) ∧
    c8Cper.sections.length < 2 ^ 16 ∧
    128 + 72 * c8Cper.sections.length + sumLens c8Cper.sections < 2 ^ 32 ∧
    (∃ c', Cper.fromSlice (Cper.toBytes (Cper.normalize c8Cper)) = some c' ∧
      cperStructEq c' (Cper.normalize c8Cper)) := by
  have h1 : CperHeaderWF c8Cper.record_header :=
    ⟨by decide, by decide, by decide, by decide, by decide, trivial, trivial⟩
  have h2 : ∀ sec ∈ c8Cper.sections, CperSectionWF sec := by
    intro sec hsec
    have he : sec = { descriptor := c8Descr, body := .unknown guidZero [9, 8, 7, 6] } := by
      simpa [c8Cper] using hsec
    subst he
    exact ⟨⟨by decide, by decide, trivial, trivial⟩, by decide,
      (by decide : (guidZero : Guid) ≠ fwErrorRecordGuid)⟩
  exact ⟨h1, h2, by decide, by decide,
    c1_cper_roundtrip_amended c8Cper h1 h2 (by decide) (by decide)⟩

/-- A CPER whose single section is an `Unknown` body that carries the firmware
error record GUID as its declared section type: `to_bytes` writes its 4 body
bytes, but `from_slice` routes them to the firmware-error-record decoder,
which rejects them (fewer than 16 bytes), so the section is dropped. -/
def c1Cper : Cper :=
  { record_header := sampleCperHeader
    sections := [{ descriptor := { c8Descr with section_type := fwErrorRecordGuid },
                   body := .unknown fwErrorRecordGuid [1, 2, 3, 4] }] }

/-- C1 counterexample: the unamended claim quantifies over every `Cper`; for
`c1Cper` the round-trip parses successfully but silently loses the section, so
the result is not structurally equal to the normalized original. -/
theorem c1_cper_roundtrip_counterexample :
    (Cper.fromSlice (Cper.toBytes (Cper.normalize c1Cper))).map
      (fun c' => decide (cperStructEq c' (Cper.normalize c1Cper))) = some false := by
  decide

end Crashlog
